import Mathlib

/-!
Verification of the patient-compass core agents against their design
specification.

The Python sources under
`src/components/ts_runtime_bundle/backend/agents/` are shallowly embedded
here: pure functions become Lean functions, file-system reads become fields
of explicit store structures (an absent file is `Option.none` where the code
would raise, and an empty list where the code treats absence as an empty
source), Python exceptions become `Except`, and Python `float` arithmetic
over the decimal constants of the code is idealised as exact rational
arithmetic (`Frac` below).

Python strings are `String`; every string operation used by the code
(strip, lower, upper, lexicographic comparison, substring search) is
re-implemented structurally over `List Char` so that all definitions reduce
in the kernel.  Python string comparison is code-point lexicographic, which
is exactly `charsLt` below.
-/

/-- Python code-point lexicographic strict comparison of character lists,
the order Python uses to compare `str` values. -/
def charsLt : List Char → List Char → Bool
  | [], [] => false
  | [], _ :: _ => true
  | _ :: _, [] => false
  | a :: as, b :: bs => a < b || (a == b && charsLt as bs)

/-- Python code-point lexicographic non-strict comparison. -/
def charsLe (a b : List Char) : Bool := charsLt a b || a == b

/-- Strict comparison of Python strings (`a < b` on `str`). -/
def pyStrLt (a b : String) : Bool := charsLt a.data b.data

/-- Non-strict comparison of Python strings (`a <= b` on `str`). -/
def pyStrLe (a b : String) : Bool := charsLe a.data b.data

theorem charsLt_irrefl (a : List Char) : charsLt a a = false := by
  induction a with
  | nil => rfl
  | cons c cs ih =>
      simp [charsLt, ih]

theorem charsLt_trans : ∀ {a b c : List Char},
    charsLt a b = true → charsLt b c = true → charsLt a c = true := by
  intro a
  induction a with
  | nil =>
      intro b c hab hbc
      cases b with
      | nil => simp [charsLt] at hab
      | cons y ys =>
          cases c with
          | nil => simp [charsLt] at hbc
          | cons z zs => simp [charsLt]
  | cons x xs ih =>
      intro b c hab hbc
      cases b with
      | nil => simp [charsLt] at hab
      | cons y ys =>
          cases c with
          | nil => simp [charsLt] at hbc
          | cons z zs =>
              simp only [charsLt, Bool.or_eq_true, Bool.and_eq_true, beq_iff_eq,
                decide_eq_true_eq] at hab hbc ⊢
              rcases hab with h1 | ⟨h1, h1'⟩
              · rcases hbc with h2 | ⟨h2, h2'⟩
                · exact Or.inl (lt_trans h1 h2)
                · exact Or.inl (h2 ▸ h1)
              · rcases hbc with h2 | ⟨h2, h2'⟩
                · exact Or.inl (h1 ▸ h2)
                · exact Or.inr ⟨h1.trans h2, ih h1' h2'⟩

theorem charsLt_total (a b : List Char) :
    charsLt a b = true ∨ charsLt b a = true ∨ a = b := by
  induction a generalizing b with
  | nil =>
      cases b with
      | nil => exact Or.inr (Or.inr rfl)
      | cons y ys => exact Or.inl (by simp [charsLt])
  | cons x xs ih =>
      cases b with
      | nil => exact Or.inr (Or.inl (by simp [charsLt]))
      | cons y ys =>
          rcases lt_trichotomy x y with h | h | h
          · exact Or.inl (by simp [charsLt, h])
          · rcases ih ys with h2 | h2 | h2
            · exact Or.inl (by simp [charsLt, h, h2])
            · exact Or.inr (Or.inl (by simp [charsLt, h.symm, h2]))
            · exact Or.inr (Or.inr (by simp [h, h2]))
          · exact Or.inr (Or.inl (by simp [charsLt, h]))

theorem charsLe_total (a b : List Char) :
    charsLe a b = true ∨ charsLe b a = true := by
  rcases charsLt_total a b with h | h | h
  · exact Or.inl (by simp [charsLe, h])
  · exact Or.inr (by simp [charsLe, h])
  · exact Or.inl (by simp [charsLe, h])

theorem charsLe_trans {a b c : List Char}
    (hab : charsLe a b = true) (hbc : charsLe b c = true) :
    charsLe a c = true := by
  simp only [charsLe, Bool.or_eq_true, beq_iff_eq] at hab hbc ⊢
  rcases hab with h1 | h1
  · rcases hbc with h2 | h2
    · exact Or.inl (charsLt_trans h1 h2)
    · exact Or.inl (h2 ▸ h1)
  · rcases hbc with h2 | h2
    · exact Or.inl (h1 ▸ h2)
    · exact Or.inr (h1.trans h2)

theorem charsLe_antisymm {a b : List Char}
    (hab : charsLe a b = true) (hba : charsLe b a = true) : a = b := by
  simp only [charsLe, Bool.or_eq_true, beq_iff_eq] at hab hba
  rcases hab with h1 | h1
  · rcases hba with h2 | h2
    · exact absurd (charsLt_trans h1 h2) (by simp [charsLt_irrefl])
    · exact h2.symm
  · exact h1

theorem pyStrLe_trans {a b c : String}
    (hab : pyStrLe a b = true) (hbc : pyStrLe b c = true) :
    pyStrLe a c = true := charsLe_trans hab hbc

theorem pyStrLe_total (a b : String) :
    pyStrLe a b = true ∨ pyStrLe b a = true := charsLe_total a.data b.data

theorem pyStrLe_antisymm {a b : String}
    (hab : pyStrLe a b = true) (hba : pyStrLe b a = true) : a = b :=
  String.ext (charsLe_antisymm hab hba)

/-- Python `str.strip()` with no argument: drop leading and trailing
whitespace characters. -/
def pyStripChars (cs : List Char) : List Char :=
  ((cs.dropWhile Char.isWhitespace).reverse.dropWhile Char.isWhitespace).reverse

/-- Python `str.strip()` on a string value. -/
def pyStrip (s : String) : String := String.mk (pyStripChars s.data)

/-- Python `str.lower()` (ASCII fragment; the data of this system is ASCII). -/
def pyLower (s : String) : String := String.mk (s.data.map Char.toLower)

/-- Python `str.upper()` (ASCII fragment). -/
def pyUpper (s : String) : String := String.mk (s.data.map Char.toUpper)

/-- Python `str.casefold()` (ASCII fragment, where it agrees with lower). -/
def pyCasefold (s : String) : String := pyLower s

/-- Whether `needle` occurs as a contiguous run inside `hay`
(Python `needle in hay`). -/
def charsContains : List Char → List Char → Bool
  | _, [] => true
  | [], _ :: _ => false
  | h :: hs, n :: ns =>
      (charsStartsWith (h :: hs) (n :: ns)) || charsContains hs (n :: ns)
where
  charsStartsWith : List Char → List Char → Bool
    | _, [] => true
    | [], _ :: _ => false
    | a :: as, b :: bs => a == b && charsStartsWith as bs

/-- Python `sub in s` on strings. -/
def pyContains (s sub : String) : Bool := charsContains s.data sub.data

/-- Python `c in s` for a single character. -/
def pyContainsChar (s : String) (c : Char) : Bool := s.data.contains c

/-- `_safe_str` / `_norm_str` / `_s` of the sources: `str(value).strip()`
for a present value and the empty string for `None`.  All values flowing in
are already strings in this embedding. -/
def safeStr : Option String → String
  | none => ""
  | some s => pyStrip s

/-- Python truthiness of a string: non-empty. -/
def strTruthy (s : String) : Bool := s ≠ ""

/-- `value or None` idiom of the sources applied to a stripped string:
an empty string becomes `None`. -/
def orNone (s : String) : Option String := if s = "" then none else some s

/-! ### Exact rational arithmetic

The sources do their scoring and trend arithmetic in Python floats over
small decimal constants.  We idealise this as exact rational arithmetic.
`Frac` is an unreduced fraction with positive denominator; every operation
below is structural so that concrete runs reduce in the kernel.  `toRat`
maps into Mathlib's `ℚ` for clean statements. -/

structure Frac where
  num : Int
  den : Int
deriving DecidableEq

/-- Build a fraction, normalising the sign into the numerator. -/
def Frac.make (n d : Int) : Frac :=
  if d < 0 then ⟨-n, -d⟩ else ⟨n, d⟩

def Frac.ofInt (n : Int) : Frac := ⟨n, 1⟩

def Frac.add (a b : Frac) : Frac := ⟨a.num * b.den + b.num * a.den, a.den * b.den⟩

def Frac.sub (a b : Frac) : Frac := ⟨a.num * b.den - b.num * a.den, a.den * b.den⟩

def Frac.mul (a b : Frac) : Frac := ⟨a.num * b.num, a.den * b.den⟩

def Frac.div (a b : Frac) : Frac := Frac.make (a.num * b.den) (a.den * b.num)

def Frac.fabs (a : Frac) : Frac := ⟨|a.num|, a.den⟩

/-- The rational value of a fraction. -/
def Frac.toRat (a : Frac) : ℚ := Rat.divInt a.num a.den

/-- `a <= b` on the rational values. -/
def Frac.le (a b : Frac) : Bool := decide (a.toRat ≤ b.toRat)

/-- `a < b` on the rational values. -/
def Frac.lt (a b : Frac) : Bool := decide (a.toRat < b.toRat)

/-- Python `min(a, b)`: returns `a` unless `b` is strictly smaller. -/
def Frac.fmin (a b : Frac) : Frac := if Frac.lt b a then b else a

/-- Banker's rounding of a fraction with positive denominator to an
integer, as Python's builtin `round` does. -/
def Frac.bankersRound (a : Frac) : Int :=
  let q := Int.ediv a.num a.den
  let r := Int.emod a.num a.den
  if 2 * r < a.den then q
  else if 2 * r > a.den then q + 1
  else if Int.emod q 2 = 0 then q else q + 1

/-- Python `round(x, k)` where `scale = 10 ^ k`. -/
def Frac.roundScaled (a : Frac) (scale : Int) : Frac :=
  ⟨Frac.bankersRound (a.mul ⟨scale, 1⟩), scale⟩

/-! ### Stable sorting

Python's `list.sort` is a stable sort with respect to the key order.  A
stable insertion sort over the same total preorder produces the same list,
so we embed sorting as `insSort`. -/

/-- Insert `a` before the first element `b` with `le a b`; together with
`insSort` this is a stable sort for a total preorder `le`. -/
def insertOrd (le : α → α → Bool) (a : α) : List α → List α
  | [] => [a]
  | b :: bs => if le a b then a :: b :: bs else b :: insertOrd le a bs

/-- Stable insertion sort, the embedding of Python `list.sort(key=...)`. -/
def insSort (le : α → α → Bool) : List α → List α
  | [] => []
  | x :: xs => insertOrd le x (insSort le xs)

theorem insertOrd_perm (le : α → α → Bool) (a : α) (l : List α) :
    List.Perm (insertOrd le a l) (a :: l) := by
  induction l with
  | nil => simp [insertOrd]
  | cons b bs ih =>
      by_cases h : le a b
      · simp [insertOrd, h]
      · simp only [insertOrd, h, if_neg, Bool.false_eq_true, if_false]
        exact ((ih.cons b).trans (List.Perm.swap a b bs))

theorem insSort_perm (le : α → α → Bool) (l : List α) :
    List.Perm (insSort le l) l := by
  induction l with
  | nil => simp [insSort]
  | cons x xs ih =>
      exact (insertOrd_perm le x (insSort le xs)).trans (ih.cons x)

theorem insertOrd_pairwise (le : α → α → Bool)
    (htrans : ∀ a b c, le a b = true → le b c = true → le a c = true)
    (htotal : ∀ a b, le a b = true ∨ le b a = true)
    (a : α) (l : List α)
    (hl : List.Pairwise (fun x y => le x y = true) l) :
    List.Pairwise (fun x y => le x y = true) (insertOrd le a l) := by
  induction l with
  | nil => simp [insertOrd]
  | cons b bs ih =>
      rcases hl with _ | ⟨hb, hbs⟩
      by_cases h : le a b = true
      · simp only [insertOrd, h, if_true]
        refine List.Pairwise.cons ?_ (List.Pairwise.cons hb hbs)
        intro y hy
        rcases List.mem_cons.mp hy with rfl | hy
        · exact h
        · exact htrans _ _ _ h (hb y hy)
      · simp only [insertOrd, h, if_false]
        refine List.Pairwise.cons ?_ (ih hbs)
        intro y hy
        have hmem : y ∈ a :: bs := (insertOrd_perm le a bs).mem_iff.mp hy
        rcases List.mem_cons.mp hmem with h3 | hy2
        · rw [h3]
          rcases htotal a b with h2 | h2
          · exact absurd h2 h
          · exact h2
        · exact hb y hy2

theorem insSort_pairwise (le : α → α → Bool)
    (htrans : ∀ a b c, le a b = true → le b c = true → le a c = true)
    (htotal : ∀ a b, le a b = true ∨ le b a = true)
    (l : List α) :
    List.Pairwise (fun x y => le x y = true) (insSort le l) := by
  induction l with
  | nil => simp [insSort]
  | cons x xs ih =>
      exact insertOrd_pairwise le htrans htotal x (insSort le xs) ih

/-! ### Datetime model

`temporal_evolution_agent._parse_any_datetime` funnels every source
timestamp through `datetime.fromisoformat` and two fixed `strptime`
formats.  We embed CPython 3.10's strict `fromisoformat` grammar (later
interpreters accept strictly more forms) and the net acceptance conditions
of `strptime` with the fixed formats `%Y%m%d`, `%Y%m%d%H%M`,
`%Y%m%d%H%M%S` and `%Y-%m-%d`, which reduce to positional digit checks
plus calendar validity. -/

structure PyDateTime where
  year : Nat
  month : Nat
  day : Nat
  hour : Nat
  minute : Nat
  second : Nat
  micro : Nat
  offUs : Option Int
deriving DecidableEq

def digVal (c : Char) : Nat := c.toNat - 48

def digitsVal (cs : List Char) : Nat := cs.foldl (fun acc c => acc * 10 + digVal c) 0

/-- Zero-padded fixed-width decimal rendering. -/
def padChars : Nat → Nat → List Char
  | 0, _ => []
  | w + 1, n => padChars w (n / 10) ++ [Char.ofNat (48 + n % 10)]

def isLeapYear (y : Nat) : Bool := y % 4 = 0 && (y % 100 ≠ 0 || y % 400 = 0)

def daysInMonth (y m : Nat) : Nat :=
  if m = 2 then (if isLeapYear y then 29 else 28)
  else if m = 4 || m = 6 || m = 9 || m = 11 then 30
  else if 1 ≤ m && m ≤ 12 then 31
  else 0

/-- Calendar validity as enforced by `datetime.date` (years 1..9999). -/
def validDate (y m d : Nat) : Bool :=
  1 ≤ y && y ≤ 9999 && 1 ≤ m && m ≤ 12 && 1 ≤ d && d ≤ daysInMonth y m

def validTime (h mi s : Nat) : Bool := h ≤ 23 && mi ≤ 59 && s ≤ 59

/-- Shape `YYYY-MM-DD` on exactly ten characters; returns the numeric
components and the remaining characters. -/
def parseIsoDate : List Char → Option (Nat × Nat × Nat × List Char)
  | a :: b :: c :: d :: h1 :: e :: f :: h2 :: g :: h :: rest =>
      if a.isDigit && b.isDigit && c.isDigit && d.isDigit && h1 == '-' &&
          e.isDigit && f.isDigit && h2 == '-' && g.isDigit && h.isDigit then
        some (digitsVal [a, b, c, d], digitsVal [e, f], digitsVal [g, h], rest)
      else none
  | _ => none

/-- Two decimal digits and the rest. -/
def parse2 : List Char → Option (Nat × List Char)
  | a :: b :: rest => if a.isDigit && b.isDigit then some (digitsVal [a, b], rest) else none
  | _ => none

/-- Fractional part of a timestamp: exactly three or six digits, scaled to
microseconds. -/
def parseFrac (cs : List Char) : Option (Nat × List Char) :=
  let frac := cs.takeWhile Char.isDigit
  let rest := cs.dropWhile Char.isDigit
  if frac.length = 3 then some (digitsVal frac * 1000, rest)
  else if frac.length = 6 then some (digitsVal frac, rest)
  else none

/-- Time components `HH[:MM[:SS[.fff{fff}]]]` of the strict `fromisoformat`
grammar; returns `(hour, minute, second, microsecond, rest)`. -/
def parseIsoTimeComps (cs : List Char) : Option (Nat × Nat × Nat × Nat × List Char) := do
  let (h, r1) ← parse2 cs
  match r1 with
  | ':' :: r2 => do
      let (mi, r3) ← parse2 r2
      match r3 with
      | ':' :: r4 => do
          let (s, r5) ← parse2 r4
          match r5 with
          | '.' :: r6 => do
              let (us, r7) ← parseFrac r6
              pure (h, mi, s, us, r7)
          | _ => pure (h, mi, s, 0, r5)
      | _ => pure (h, mi, 0, 0, r3)
  | _ => pure (h, 0, 0, 0, r1)

/-- Timezone suffix `±HH:MM[:SS[.ffffff]]` consuming the rest of the
string; returns the signed offset in microseconds. -/
def parseIsoTz (cs : List Char) : Option (Option Int) :=
  match cs with
  | [] => some none
  | sign :: r =>
      if sign == '+' || sign == '-' then
        match parseIsoTimeComps r with
        | some (oh, om, os, ous, []) =>
            let total : Int := ((oh * 3600 + om * 60 + os) * 1000000 + ous : Nat)
            if total < 24 * 3600 * 1000000 then
              some (some (if sign == '-' then -total else total))
            else none
        | _ => none
      else none

/-- CPython 3.10 `datetime.fromisoformat` (strict grammar:
`YYYY-MM-DD[*HH[:MM[:SS[.fff[fff]]]][±HH:MM[:SS[.ffffff]]]]`). -/
def pyFromIsoformat (s : String) : Option PyDateTime := do
  let (y, mo, da, rest) ← parseIsoDate s.data
  if validDate y mo da then
    match rest with
    | [] => pure ⟨y, mo, da, 0, 0, 0, 0, none⟩
    | [_] => none
    | _ :: tcs => do
        let (h, mi, sec, us, r) ← parseIsoTimeComps tcs
        if validTime h mi sec then do
          let off ← parseIsoTz r
          pure ⟨y, mo, da, h, mi, sec, us, off⟩
        else none
  else none

def renderDateChars (dt : PyDateTime) : List Char :=
  padChars 4 dt.year ++ ['-'] ++ padChars 2 dt.month ++ ['-'] ++ padChars 2 dt.day

def renderHMSChars (dt : PyDateTime) : List Char :=
  padChars 2 dt.hour ++ [':'] ++ padChars 2 dt.minute ++ [':'] ++ padChars 2 dt.second

def renderOffChars (o : Int) : List Char :=
  let sign : List Char := if o < 0 then ['-'] else ['+']
  let a : Nat := o.natAbs
  let usPart : Nat := a % 1000000
  let secs : Nat := a / 1000000
  sign ++ padChars 2 (secs / 3600) ++ [':'] ++ padChars 2 (secs / 60 % 60) ++
    (if secs % 60 ≠ 0 || usPart ≠ 0 then
      [':'] ++ padChars 2 (secs % 60) ++
        (if usPart ≠ 0 then ['.'] ++ padChars 6 usPart else [])
    else [])

/-- `datetime.isoformat()` with the default `timespec="auto"`. -/
def isoformatAuto (dt : PyDateTime) : String :=
  String.mk (renderDateChars dt ++ ['T'] ++ renderHMSChars dt ++
    (if dt.micro ≠ 0 then ['.'] ++ padChars 6 dt.micro else []) ++
    (match dt.offUs with
     | none => []
     | some o => renderOffChars o))

/-- `datetime.isoformat(timespec="seconds")`. -/
def isoformatSeconds (dt : PyDateTime) : String :=
  String.mk (renderDateChars dt ++ ['T'] ++ renderHMSChars dt)

/-- Net acceptance of `datetime.strptime` on an all-digit string of length
8, 12, or 14 with formats `%Y%m%d(%H%M(%S))`: the fixed-width split must
give in-range calendar components. -/
def strptimeDigits (cs : List Char) : Option PyDateTime :=
  let y := digitsVal (cs.take 4)
  let mo := digitsVal ((cs.drop 4).take 2)
  let da := digitsVal ((cs.drop 6).take 2)
  let h := if cs.length ≥ 12 then digitsVal ((cs.drop 8).take 2) else 0
  let mi := if cs.length ≥ 12 then digitsVal ((cs.drop 10).take 2) else 0
  let sec := if cs.length ≥ 14 then digitsVal ((cs.drop 12).take 2) else 0
  if validDate y mo da && validTime h mi sec then
    some ⟨y, mo, da, h, mi, sec, 0, none⟩
  else none

/-- `text.replace("Z", "+00:00")`. -/
def replaceZ (s : String) : String :=
  String.mk (s.data.flatMap (fun c => if c = 'Z' then ['+', '0', '0', ':', '0', '0'] else [c]))

/-- Embedding of `_parse_any_datetime`: normalise any raw timestamp into a
canonical ISO-like string, or `None`.  Every fallible call of the source is
wrapped in `try/except ValueError`, so the Python function is total on
strings, as this model is by construction. -/
def parseAnyDatetime (raw : Option String) : Option String :=
  let text := safeStr raw
  if text = "" then none
  else
    let isoTry : Option String :=
      if pyContainsChar text 'T' || pyContainsChar text '-' then
        (pyFromIsoformat (replaceZ text)).map isoformatAuto
      else none
    match isoTry with
    | some r => some r
    | none =>
        let cs := text.data
        let hasSuffix := cs.length > 14 && (cs.getD 14 ' ' == '+' || cs.getD 14 ' ' == '-')
        let core := if hasSuffix then cs.take 14 else cs
        let suffix := if hasSuffix then cs.drop 14 else []
        let digitTry : Option String :=
          if core.all Char.isDigit && (core.length = 8 || core.length = 12 || core.length = 14) then
            (strptimeDigits core).map (fun dt => String.mk (isoformatSeconds dt).data ++ String.mk suffix)
          else none
        match digitTry with
        | some r => some r
        | none =>
            if cs.length ≥ 10 then
              match parseIsoDate (cs.take 10) with
              | some (y, mo, da, []) =>
                  if validDate y mo da then
                    some (isoformatSeconds ⟨y, mo, da, 0, 0, 0, 0, none⟩)
                  else none
              | _ => none
            else none

/-! ### Document content model

C-CDA files are XML trees; FHIR files are JSON bundles.  A `DocFile`
carries the outcome of parsing its bytes with the parser its folder is
read with (`Option.none` models `ET.ParseError` / `json.JSONDecodeError`,
which the agents treat as empty extraction).  Tags are stored without the
`urn:hl7-org:v3` namespace wrapper, matching the sources' `local_tag` and
namespaced lookups. -/

inductive XNode where
  | mk (tag : String) (attrs : List (String × String)) (text : Option String)
      (children : List XNode)

def XNode.tag : XNode → String
  | .mk t _ _ _ => t

def XNode.attrs : XNode → List (String × String)
  | .mk _ a _ _ => a

def XNode.text : XNode → Option String
  | .mk _ _ x _ => x

def XNode.children : XNode → List XNode
  | .mk _ _ _ cs => cs

/-- `node.attrib.get(key)`. -/
def XNode.attr (n : XNode) (k : String) : Option String :=
  (n.attrs.find? (fun p => p.1 = k)).map (fun p => p.2)

mutual

/-- Document-order traversal including the node itself (`root.iter()`). -/
def XNode.allNodes : XNode → List XNode
  | .mk t a x cs => .mk t a x cs :: allNodesList cs

def allNodesList : List XNode → List XNode
  | [] => []
  | n :: ns => n.allNodes ++ allNodesList ns

end

/-- Proper descendants of a node (`.//` lookups start below the root). -/
def XNode.descendants (n : XNode) : List XNode := allNodesList n.children

/-- `element.find(tag)`: first direct child with the tag. -/
def XNode.findChild (n : XNode) (t : String) : Option XNode :=
  n.children.find? (fun c => c.tag = t)

structure Coding where
  code : Option String
  display : Option String
deriving DecidableEq

structure CodeObj where
  text : Option String
  coding : List Coding
deriving DecidableEq

structure Quantity where
  qval : Option String
  qunit : Option String
deriving DecidableEq

/-- One `entry.resource` of a FHIR bundle, restricted to the fields the
agents read.  JSON numbers read through `_safe_str` are stored as their
`str()` rendering. -/
structure FhirResource where
  resourceType : Option String
  rid : Option String
  effectiveDateTime : Option String
  issued : Option String
  recordedDate : Option String
  onsetDateTime : Option String
  onsetPeriod : Option (Option String × Option String)
  period : Option (Option String × Option String)
  codeObj : Option CodeObj
  description : Option String
  interpretation : List (List (Option String))
  valueQuantity : Option Quantity
  valueString : Option String
deriving DecidableEq

def FhirBundle := List FhirResource

/-- One file of one of the four document folders. -/
structure DocFile where
  family : String
  name : String
  xml : Option XNode
  fhirJson : Option (List FhirResource)

/-! ### Identity agent data -/

/-- One row of `data/csv/patients.csv` (missing columns are `none`). -/
structure PatientRow where
  pid : Option String
  first : Option String
  last : Option String
  birthdate : Option String
  gender : Option String
deriving DecidableEq

/-- Demographics held per patient uuid by `_load_csv_patients`. -/
structure Demo where
  firstName : Option String
  lastName : Option String
  dateOfBirth : Option String
  gender : Option String
deriving DecidableEq

structure DiagEntry where
  dateDiagnosed : Option String
  condition : Option String
  icdCode : Option String
  status : Option String
deriving DecidableEq

structure MedEntry where
  prescribedAt : Option String
  mname : Option String
  dosage : Option String
deriving DecidableEq

structure LabEntry where
  datePerformed : Option String
  testName : Option String
  result : Option String
  lunit : Option String
  flagged : Bool
deriving DecidableEq

/-- One successfully JSON-decoded `patient_data` payload (plus the row's
`created_at` cell) of the most recent `patients-export-*.csv`; rows whose
payload fails to decode are absent, as both agents skip them. -/
structure ExportRow where
  createdAt : Option String
  firstName : Option String
  lastName : Option String
  dateOfBirth : Option String
  gender : Option String
  patientId : Option String
  mrn : Option String
  diagnoses : List DiagEntry
  currentMedications : List MedEntry
  labResults : List LabEntry
  admissionDate : Option String

/-- The file-backed inputs of `IdentityAgent`.  `patientsFile = none`
models an absent `data/csv/patients.csv` (the open then raises);
`exportRows = []` models an absent export file (handled as empty). -/
structure IdentityStore where
  patientsFile : Option (List PatientRow)
  docs : List DocFile
  exportRows : List ExportRow
  exportPath : String

/-- `_norm_gender`. -/
def normGender (v : Option String) : String :=
  let raw := pyUpper (safeStr v)
  if raw = "" then ""
  else if raw = "M" || raw = "MALE" then "MALE"
  else if raw = "F" || raw = "FEMALE" then "FEMALE"
  else "OTHER"

def isHexDigit (c : Char) : Bool :=
  c.isDigit || ('a' ≤ c && c ≤ 'f') || ('A' ≤ c && c ≤ 'F')

/-- Whether a character run has the 8-4-4-4-12 shape of `UUID_PATTERN`. -/
def uuidShape (cs : List Char) : Bool :=
  cs.length = 36 && (List.range 36).all (fun i =>
    if i = 8 || i = 13 || i = 18 || i = 23 then cs.getD i ' ' == '-'
    else isHexDigit (cs.getD i ' '))

/-- Leftmost 36-character window matching `UUID_PATTERN` (`re.search`). -/
def findUuid : List Char → Option (List Char)
  | [] => none
  | c :: rest =>
      if uuidShape ((c :: rest).take 36) then some ((c :: rest).take 36)
      else findUuid rest

/-- Index of the last `.` in a filename, if any (`str.rfind`). -/
def rfindDot (cs : List Char) : Option Nat :=
  (cs.reverse.findIdx? (fun c => c == '.')).map (fun j => cs.length - 1 - j)

/-- `pathlib.PurePath.stem`. -/
def pathStem (name : String) : String :=
  match rfindDot name.data with
  | some i => if 0 < i ∧ i < name.data.length - 1 then String.mk (name.data.take i) else name
  | none => name

/-- `pathlib.PurePath.suffix`. -/
def pathSuffix (name : String) : String :=
  match rfindDot name.data with
  | some i => if 0 < i ∧ i < name.data.length - 1 then String.mk (name.data.drop i) else ""
  | none => ""

/-- `_extract_uuid_from_name`: leftmost UUID in the stem, lowercased. -/
def extractUuidFromName (name : String) : Option String :=
  (findUuid (pathStem name).data).map (fun u => pyLower (String.mk u))

/-- Insertion-ordered dict lookup (first matching key). -/
def odGet : List (String × α) → String → Option α
  | [], _ => none
  | (k', v) :: rest, k => if k' = k then some v else odGet rest k

/-- Insertion-ordered dict `d[k] = v`: replace in place or append. -/
def odUpsert : List (String × α) → String → α → List (String × α)
  | [], k, v => [(k, v)]
  | (k', v') :: rest, k, v =>
      if k' = k then (k, v) :: rest else (k', v') :: odUpsert rest k v

/-- `d.setdefault(k, []).append(v)`. -/
def odAppend : List (String × List α) → String → α → List (String × List α)
  | [], k, v => [(k, [v])]
  | (k', vs) :: rest, k, v =>
      if k' = k then (k', vs ++ [v]) :: rest else (k', vs) :: odAppend rest k v

/-- `_load_csv_patients`: raises when the patients table is absent;
otherwise an insertion-ordered map uuid -> demographics. -/
def loadCsvPatients (st : IdentityStore) : Except Unit (List (String × Demo)) :=
  match st.patientsFile with
  | none => .error ()
  | some rows =>
      .ok (rows.foldl (fun acc row =>
        let u := pyLower (safeStr row.pid)
        if u = "" then acc
        else odUpsert acc u
          ⟨orNone (safeStr row.first), orNone (safeStr row.last),
            orNone (safeStr row.birthdate), orNone (normGender row.gender)⟩) [])

/-- The dict produced per export row by `_load_profile_export_rows`. -/
structure ProfileRow where
  sourceFile : String
  createdAt : Option String
  firstName : Option String
  lastName : Option String
  dateOfBirth : Option String
  gender : Option String
  patientId : Option String
  mrn : Option String
deriving DecidableEq

/-- `_load_profile_export_rows`. -/
def loadProfileRows (st : IdentityStore) : List ProfileRow :=
  st.exportRows.map (fun r =>
    ⟨st.exportPath, orNone (safeStr r.createdAt), orNone (safeStr r.firstName),
      orNone (safeStr r.lastName), orNone (safeStr r.dateOfBirth),
      orNone (normGender r.gender), orNone (safeStr r.patientId),
      orNone (safeStr r.mrn)⟩)

/-- `_demographic_key`. -/
def demographicKey (first last dob gender : Option String) : String :=
  pyCasefold (safeStr first) ++ "|" ++ pyCasefold (safeStr last) ++ "|" ++
    safeStr dob ++ "|" ++ normGender gender

/-- `_profiles_by_identifier`: rows grouped by `patient_id` and by
`medical_record_number`. -/
def profilesByIdentifier (st : IdentityStore) :
    List (String × List ProfileRow) × List (String × List ProfileRow) × List ProfileRow :=
  let rows := loadProfileRows st
  let step := rows.foldl (fun acc row =>
    let pid := safeStr row.patientId
    let m := safeStr row.mrn
    let acc1 := if pid ≠ "" then (odAppend acc.1 pid row, acc.2) else acc
    if m ≠ "" then (acc1.1, odAppend acc1.2 m row) else acc1) ([], [])
  (step.1, step.2, rows)

/-- The fixed iteration order of `self.doc_dirs`. -/
def docFamilies : List String := ["ccda", "fhir", "fhir_dstu2", "fhir_stu3"]

/-- `_candidate_documents`: per family, the files whose name contains the
uuid, sorted by name (the source sorts each folder's glob results). -/
def candidateDocuments (st : IdentityStore) (patientUuid : String) : List (String × DocFile) :=
  docFamilies.flatMap (fun fam =>
    (insSort (fun a b => pyStrLe a.name b.name)
        ((st.docs.filter (fun d => d.family = fam)).filter
          (fun d => pyContains d.name patientUuid))).map (fun d => (fam, d)))

/-- `_ccda_internal_ids`: extensions of `recordTarget/patientRole/id`. -/
def ccdaInternalIds (d : DocFile) : List String :=
  match d.xml with
  | none => []
  | some root =>
      ((root.descendants.filter (fun n => n.tag = "recordTarget")).flatMap (fun rt =>
        (rt.children.filter (fun n => n.tag = "patientRole")).flatMap (fun pr =>
          pr.children.filter (fun n => n.tag = "id")))).filterMap (fun n =>
        let ext := pyLower (safeStr (n.attr "extension"))
        if ext = "" then none else some ext)

/-- `_fhir_internal_ids`: ids of `Patient` resources in the bundle. -/
def fhirInternalIds (d : DocFile) : List String :=
  match d.fhirJson with
  | none => []
  | some entries =>
      entries.filterMap (fun r =>
        if r.resourceType = some "Patient" then
          let pid := pyLower (safeStr r.rid)
          if pid = "" then none else some pid
        else none)

structure DocEvidence where
  datasetType : String
  filePath : String
  filenameUuid : Option String
  filenameMatches : Bool
  internalPatientIds : List String
  internalIdMatches : Bool
deriving DecidableEq

/-- `_document_evidence`: per-document evidence plus the conjunction
`all_internal_match`. -/
def documentEvidence (st : IdentityStore) (patientUuid : String) :
    List DocEvidence × Bool :=
  (candidateDocuments st patientUuid).foldl (fun acc fd =>
    let fam := fd.1
    let d := fd.2
    let filenameUuid := extractUuidFromName d.name
    let internalIds := if fam = "ccda" then ccdaInternalIds d else fhirInternalIds d
    let internalMatch := internalIds = [] || internalIds.contains patientUuid
    (acc.1 ++ [⟨fam, d.name, filenameUuid, filenameUuid == some patientUuid,
        internalIds, internalMatch⟩],
      acc.2 && internalMatch)) ([], true)

inductive EvidenceItem where
  | csvItem (filePath : String) (patientUuid : String) (foundInCsv : Bool)
      (firstName lastName dateOfBirth gender : Option String)
  | profileItem (filePath : Option String) (createdAt : Option String)
      (patientId mrn firstName lastName dateOfBirth gender : Option String)
      (linkedToCsvUuid : Option Bool)
  | docItem (e : DocEvidence)
deriving DecidableEq

structure ResolvedIdentity where
  queryIdentifier : String
  csvPatientUuid : Option String
  stablePatientId : Option String
  medicalRecordNumber : Option String
  firstName : Option String
  lastName : Option String
  dateOfBirth : Option String
  gender : Option String
  matchedBy : List String
  confidence : Frac
  evidence : List EvidenceItem
deriving DecidableEq

/-- The additive confidence rule of `IdentityAgent.resolve`
(lines 316-325): 0.45 for a demographic row, 0.30 for a linked profile
row, 0.15 for any document evidence, 0.10 more when every document's
internal ids agree, capped at 1.0, rounded to two decimals. -/
def confidenceScore (hasDemo hasProfile hasDocs allInternal : Bool) : Frac :=
  let c0 : Frac := ⟨0, 1⟩
  let c1 := if hasDemo then c0.add ⟨45, 100⟩ else c0
  let c2 := if hasProfile then c1.add ⟨30, 100⟩ else c1
  let c3 := if hasDocs then c2.add ⟨15, 100⟩ else c2
  let c4 := if allInternal && hasDocs then c3.add ⟨10, 100⟩ else c3
  (c4.fmin (Frac.ofInt 1)).roundScaled 100

/-- `sorted(set(xs))` for strings. -/
def sortedSet (xs : List String) : List String := insSort pyStrLe xs.dedup

/-- The accumulator of the candidate-gathering phase of `resolve`:
candidate uuid -> match reasons, uuid -> linked profile row, and the
identity-only rows. -/
structure CandState where
  cands : List (String × List String)
  matched : List (String × ProfileRow)
  onlyRows : List ProfileRow

/-- One profile-row loop of `resolve` (lines 256-280): link the row to
every csv patient sharing its demographic fingerprint, or keep it as
identity-only. -/
def addProfileMatches (d2u : List (String × List String)) (reason : String)
    (profiles : List ProfileRow) (s : CandState) : CandState :=
  profiles.foldl (fun s p =>
    let key := demographicKey p.firstName p.lastName p.dateOfBirth p.gender
    match odGet d2u key with
    | some uuids =>
        uuids.foldl (fun s u =>
          ⟨odAppend s.cands u reason, odUpsert s.matched u p, s.onlyRows⟩) s
    | none => ⟨s.cands, s.matched, s.onlyRows ++ [p]⟩) s

/-- The `demographics_to_uuid` index of `resolve`. -/
def demographicsToUuidOf (csvPatients : List (String × Demo)) :
    List (String × List String) :=
  csvPatients.foldl (fun acc ud =>
    odAppend acc
      (demographicKey ud.2.firstName ud.2.lastName ud.2.dateOfBirth ud.2.gender)
      ud.1) []

/-- The candidate-gathering phase of `resolve` (lines 243-280): direct
tabular match, document filename matches, then the two
business-identifier loops. -/
def resolveCandState (st : IdentityStore) (query : String)
    (csvPatients : List (String × Demo)) : CandState :=
  let queryLc := pyLower query
  let pr := profilesByIdentifier st
  let demographicsToUuid := demographicsToUuidOf csvPatients
  let s0 : CandState :=
    ⟨if (odGet csvPatients queryLc).isSome then [(queryLc, ["csv.patient_uuid"])] else [],
      [], []⟩
  let s1 : CandState := docFamilies.foldl (fun s fam =>
    (st.docs.filter (fun d => d.family = fam)).foldl (fun s d =>
      if pyContains d.name query then
        match extractUuidFromName d.name with
        | some u => ⟨odAppend s.cands u (fam ++ ".filename_uuid"), s.matched, s.onlyRows⟩
        | none => s
      else s) s) s0
  let s2 := addProfileMatches demographicsToUuid "profile.patient_id+demographics"
    ((odGet pr.1 query).getD []) s1
  addProfileMatches demographicsToUuid "profile.medical_record_number+demographics"
    ((odGet pr.2.1 query).getD []) s2

/-- The `ResolvedIdentity` built for one keyed candidate (lines 283-341). -/
def mkKeyedIdentity (st : IdentityStore) (query : String)
    (csvPatients : List (String × Demo)) (matched : List (String × ProfileRow))
    (ur : String × List String) : ResolvedIdentity :=
  let patientUuid := ur.1
  let demo := odGet csvPatients patientUuid
  let profile := odGet matched patientUuid
  let de := documentEvidence st patientUuid
  let docEv := de.1
  let allInternal := de.2
  let evidence : List EvidenceItem :=
    [.csvItem "data/csv/patients.csv" patientUuid demo.isSome
        (demo.bind Demo.firstName) (demo.bind Demo.lastName)
        (demo.bind Demo.dateOfBirth) (demo.bind Demo.gender)] ++
      (match profile with
       | some p => [.profileItem (some p.sourceFile) p.createdAt p.patientId p.mrn
           p.firstName p.lastName p.dateOfBirth p.gender none]
       | none => []) ++
      docEv.map EvidenceItem.docItem
  { queryIdentifier := query
    csvPatientUuid := some patientUuid
    stablePatientId := profile.bind ProfileRow.patientId
    medicalRecordNumber := profile.bind ProfileRow.mrn
    firstName := demo.bind Demo.firstName
    lastName := demo.bind Demo.lastName
    dateOfBirth := demo.bind Demo.dateOfBirth
    gender := demo.bind Demo.gender
    matchedBy := sortedSet ur.2
    confidence := confidenceScore demo.isSome profile.isSome (docEv ≠ []) allInternal
    evidence := evidence }

/-- The `ResolvedIdentity` built for one identity-only profile row
(lines 343-373). -/
def mkProfileOnlyIdentity (query : String) (p : ProfileRow) : ResolvedIdentity :=
  { queryIdentifier := query
    csvPatientUuid := none
    stablePatientId := p.patientId
    medicalRecordNumber := p.mrn
    firstName := p.firstName
    lastName := p.lastName
    dateOfBirth := p.dateOfBirth
    gender := p.gender
    matchedBy := ["profile_export_only"]
    confidence := ⟨35, 100⟩
    evidence := [.profileItem (some p.sourceFile) p.createdAt p.patientId p.mrn
      p.firstName p.lastName p.dateOfBirth p.gender (some false)] }

/-- One step of the dedup-by-(uuid, patient id, MRN) pass. -/
def dedupStep (acc : List ResolvedIdentity × List (String × String × String))
    (item : ResolvedIdentity) : List ResolvedIdentity × List (String × String × String) :=
  let key := (item.csvPatientUuid.getD "", item.stablePatientId.getD "",
    item.medicalRecordNumber.getD "")
  if acc.2.contains key then acc
  else (acc.1 ++ [item], acc.2 ++ [key])

/-- The dedup-by-(uuid, patient id, MRN) pass keeping first occurrences
(lines 375-388). -/
def dedupResolved (items : List ResolvedIdentity) : List ResolvedIdentity :=
  (items.foldl dedupStep ([], [])).1

/-- `IdentityAgent.resolve`. -/
def resolve (st : IdentityStore) (identifier : String) :
    Except Unit (List ResolvedIdentity) := do
  let query := pyStrip identifier
  if query = "" then
    return []
  let csvPatients ← loadCsvPatients st
  let s3 := resolveCandState st query csvPatients
  let keyed := (insSort (fun a b => pyStrLe a.1 b.1) s3.cands).map
    (mkKeyedIdentity st query csvPatients s3.matched)
  let profileOnly := s3.onlyRows.map (mkProfileOnlyIdentity query)
  return dedupResolved (keyed ++ profileOnly)

/-- The uuid component of the `resolve_one` sort key.  Python would raise
`TypeError` comparing `None` with a string; that comparison is reached
only at equal confidence, which `c8` below shows cannot pair a keyed with
an identity-only candidate, so totalising it is faithful. -/
def optUuidLe : Option String → Option String → Bool
  | none, _ => true
  | some _, none => false
  | some x, some y => pyStrLe x y

/-- `a <= b` on the sort key `(-confidence, csv_patient_uuid)` of
`resolve_one`. -/
def resolveOneLe (a b : ResolvedIdentity) : Bool :=
  Frac.lt b.confidence a.confidence ||
    (Frac.le a.confidence b.confidence && Frac.le b.confidence a.confidence &&
      optUuidLe a.csvPatientUuid b.csvPatientUuid)

/-- `IdentityAgent.resolve_one`. -/
def resolveOne (st : IdentityStore) (identifier : String) :
    Except Unit (Option ResolvedIdentity) := do
  let found ← resolve st identifier
  match insSort resolveOneLe found with
  | [] => return none
  | m :: _ => return some m

/-! ### Temporal evolution agent -/

inductive CtxVal where
  | s (v : String)
  | n (v : Nat)
  | null
deriving DecidableEq

/-- An optional string placed into an event context mapping. -/
def ctxOpt : Option String → CtxVal
  | none => .null
  | some v => .s v

/-- Python truthiness of an optional string. -/
def optTruthy : Option String → Bool
  | none => false
  | some s => s ≠ ""

/-- The keyword fields of `_new_event` other than the generated id. -/
structure EventBody where
  category : String
  subtype : String
  timeStart : Option String
  timeEnd : Option String
  description : Option String
  code : Option String
  value : Option String
  unitStr : Option String
  flaggedAbnormal : Bool
  sourceDataset : String
  sourceFile : String
  context : List (String × CtxVal)
deriving DecidableEq

/-- A `TimelineEvent` dict: the body plus the `ev_NNNNNN` id, modelled by
its counter value (the zero-padded rendering is order-isomorphic for any
realistic build size, and ids are compared only among themselves). -/
structure Event extends EventBody where
  eventId : Nat
deriving DecidableEq

/-- Sequential id assignment of `_next_event_id`: the builders append
events in creation order, so numbering the concatenated bodies 1, 2, ...
reproduces the shared counter. -/
def numberBodies : List EventBody → Nat → List Event
  | [], _ => []
  | b :: bs, n => ⟨b, n + 1⟩ :: numberBodies bs (n + 1)

structure EncounterRow where
  rid : Option String
  patient : Option String
  start : Option String
  stop : Option String
  description : Option String
  reasonDescription : Option String
  reasonCode : Option String
  code : Option String
  encounterClass : Option String
  provider : Option String
  organization : Option String
  payer : Option String
deriving DecidableEq

structure ConditionRow where
  patient : Option String
  start : Option String
  stop : Option String
  description : Option String
  code : Option String
  encounter : Option String
deriving DecidableEq

structure MedicationRow where
  patient : Option String
  start : Option String
  stop : Option String
  description : Option String
  reasonDescription : Option String
  reasonCode : Option String
  code : Option String
  encounter : Option String
deriving DecidableEq

structure ObservationRow where
  patient : Option String
  date : Option String
  description : Option String
  value : Option String
  units : Option String
  code : Option String
  encounter : Option String
  otype : Option String
deriving DecidableEq

structure ProcedureRow where
  patient : Option String
  date : Option String
  description : Option String
  code : Option String
  reasonDescription : Option String
  reasonCode : Option String
  encounter : Option String
deriving DecidableEq

structure CarePlanRow where
  patient : Option String
  start : Option String
  stop : Option String
  description : Option String
  code : Option String
deriving DecidableEq

structure ProviderRow where
  rid : Option String
  name : Option String
deriving DecidableEq

structure OrganizationRow where
  rid : Option String
  name : Option String
deriving DecidableEq

structure ImmunizationRow where
  patient : Option String
  date : Option String
  description : Option String
  code : Option String
deriving DecidableEq

/-- The file-backed inputs of `TemporalEvolutionAgent` (and of
`ContextFusionAgent`, which reads the same tables).  Each table list is
the `_load_csv_rows` result; an absent file is the empty list, which is
exactly how `_load_csv_rows` treats it. -/
structure TemporalStore where
  identity : IdentityStore
  encounters : List EncounterRow
  conditions : List ConditionRow
  medications : List MedicationRow
  observations : List ObservationRow
  procedures : List ProcedureRow
  careplans : List CarePlanRow
  immunizations : List ImmunizationRow
  providers : List ProviderRow
  organizations : List OrganizationRow

/-- The `PATIENT` foreign-key filter of `_build_csv_events`. -/
def rowMatches (patient : Option String) (pid : String) : Bool :=
  pyLower (safeStr patient) = pid

/-- `desc or fallback` on an already-stripped string. -/
def orDefault (s fallback : String) : String := if s = "" then fallback else s

/-- `_build_csv_events` in creation order. -/
def buildCsvBodies (st : TemporalStore) (patientUuid : Option String) : List EventBody :=
  match patientUuid with
  | none => []
  | some pu =>
      if pu = "" then []
      else
        let pid := pyLower pu
        let encounterEvents := (st.encounters.filter (fun r => rowMatches r.patient pid)).flatMap
          (fun row =>
            let start := parseAnyDatetime row.start
            let stop := parseAnyDatetime row.stop
            let encounterId := safeStr row.rid
            let desc := safeStr row.description
            let reason := safeStr row.reasonDescription
            let code := orNone (safeStr row.code)
            [({ category := "admission_discharge", subtype := "encounter_cycle",
                timeStart := start, timeEnd := stop,
                description := some (orDefault desc "Encounter"), code := code,
                value := none, unitStr := none, flaggedAbnormal := false,
                sourceDataset := "csv", sourceFile := "data/csv/encounters.csv",
                context := [("encounter_id", .s encounterId),
                  ("encounter_class", ctxOpt (orNone (safeStr row.encounterClass))),
                  ("provider_id", ctxOpt (orNone (safeStr row.provider))),
                  ("organization_id", ctxOpt (orNone (safeStr row.organization))),
                  ("payer_id", ctxOpt (orNone (safeStr row.payer))),
                  ("reason", ctxOpt (orNone reason))] } : EventBody)] ++
            (if optTruthy start then
              [({ category := "admission_discharge", subtype := "admission",
                  timeStart := start, timeEnd := none,
                  description := some (orDefault desc "Encounter admission"), code := code,
                  value := none, unitStr := none, flaggedAbnormal := false,
                  sourceDataset := "csv", sourceFile := "data/csv/encounters.csv",
                  context := [("encounter_id", .s encounterId)] } : EventBody)]
            else []) ++
            (if optTruthy stop then
              [({ category := "admission_discharge", subtype := "discharge",
                  timeStart := stop, timeEnd := none,
                  description := some (orDefault desc "Encounter discharge"), code := code,
                  value := none, unitStr := none, flaggedAbnormal := false,
                  sourceDataset := "csv", sourceFile := "data/csv/encounters.csv",
                  context := [("encounter_id", .s encounterId)] } : EventBody)]
            else []))
        let conditionEvents := (st.conditions.filter (fun r => rowMatches r.patient pid)).flatMap
          (fun row =>
            let start := parseAnyDatetime row.start
            let stop := parseAnyDatetime row.stop
            let desc := orDefault (safeStr row.description) "Condition"
            let code := orNone (safeStr row.code)
            let encounterId := orNone (safeStr row.encounter)
            (if optTruthy start then
              [({ category := "diagnosis_onset", subtype := "diagnosis_start",
                  timeStart := start, timeEnd := none, description := some desc,
                  code := code, value := none, unitStr := none, flaggedAbnormal := false,
                  sourceDataset := "csv", sourceFile := "data/csv/conditions.csv",
                  context := [("encounter_id", ctxOpt encounterId)] } : EventBody)]
            else []) ++
            (if optTruthy stop then
              [({ category := "diagnosis_onset", subtype := "diagnosis_resolved",
                  timeStart := stop, timeEnd := none, description := some desc,
                  code := code, value := none, unitStr := none, flaggedAbnormal := false,
                  sourceDataset := "csv", sourceFile := "data/csv/conditions.csv",
                  context := [("encounter_id", ctxOpt encounterId)] } : EventBody)]
            else []))
        let filteredMeds := st.medications.filter (fun r => rowMatches r.patient pid)
        let medicationEvents := filteredMeds.flatMap (fun row =>
          let start := parseAnyDatetime row.start
          let stop := parseAnyDatetime row.stop
          let name := orDefault (safeStr row.description) "Medication"
          let reason := orNone (safeStr row.reasonDescription)
          let code := orNone (safeStr row.code)
          (if optTruthy start then
            [({ category := "treatment_change", subtype := "medication_start",
                timeStart := start, timeEnd := none, description := some name,
                code := code, value := none, unitStr := none, flaggedAbnormal := false,
                sourceDataset := "csv", sourceFile := "data/csv/medications.csv",
                context := [("reason", ctxOpt reason),
                  ("encounter_id", ctxOpt (orNone (safeStr row.encounter)))] } : EventBody)]
          else []) ++
          (if optTruthy stop then
            [({ category := "treatment_change", subtype := "medication_stop",
                timeStart := stop, timeEnd := none, description := some name,
                code := code, value := none, unitStr := none, flaggedAbnormal := false,
                sourceDataset := "csv", sourceFile := "data/csv/medications.csv",
                context := [("reason", ctxOpt reason),
                  ("encounter_id", ctxOpt (orNone (safeStr row.encounter)))] } : EventBody)]
          else []))
        let medByName := filteredMeds.foldl (fun acc row =>
          let start := parseAnyDatetime row.start
          let stop := parseAnyDatetime row.stop
          let name := orDefault (safeStr row.description) "Medication"
          let acc := if optTruthy start then odAppend acc name (start.getD "", true) else acc
          if optTruthy stop then odAppend acc name (stop.getD "", false) else acc) []
        let restartEvents := medByName.flatMap (fun nameAndPoints =>
          let starts := insSort pyStrLe
            ((nameAndPoints.2.filter (fun p => p.2 && p.1 ≠ "")).map (fun p => p.1))
          if 1 < starts.length then
            [({ category := "treatment_change", subtype := "medication_restart_or_change",
                timeStart := starts.getLast?, timeEnd := none,
                description := some nameAndPoints.1, code := none, value := none,
                unitStr := none, flaggedAbnormal := false,
                sourceDataset := "csv", sourceFile := "data/csv/medications.csv",
                context := [("starts_observed", .n starts.length)] } : EventBody)]
          else [])
        let observationEvents := (st.observations.filter (fun r => rowMatches r.patient pid)).map
          (fun row =>
            ({ category := "lab_trend", subtype := "observation",
               timeStart := parseAnyDatetime row.date, timeEnd := none,
               description := some (orDefault (safeStr row.description) "Observation"),
               code := orNone (safeStr row.code), value := orNone (safeStr row.value),
               unitStr := orNone (safeStr row.units), flaggedAbnormal := false,
               sourceDataset := "csv", sourceFile := "data/csv/observations.csv",
               context := [("encounter_id", ctxOpt (orNone (safeStr row.encounter))),
                 ("type", ctxOpt (orNone (safeStr row.otype)))] } : EventBody))
        let procedureEvents := (st.procedures.filter (fun r => rowMatches r.patient pid)).map
          (fun row =>
            ({ category := "treatment_change", subtype := "procedure",
               timeStart := parseAnyDatetime row.date, timeEnd := none,
               description := some (orDefault (safeStr row.description) "Procedure"),
               code := orNone (safeStr row.code), value := none, unitStr := none,
               flaggedAbnormal := false, sourceDataset := "csv",
               sourceFile := "data/csv/procedures.csv",
               context := [("reason", ctxOpt (orNone (safeStr row.reasonDescription)))] } :
              EventBody))
        let careplanEvents := (st.careplans.filter (fun r => rowMatches r.patient pid)).map
          (fun row =>
            ({ category := "treatment_change", subtype := "careplan_cycle",
               timeStart := parseAnyDatetime row.start, timeEnd := parseAnyDatetime row.stop,
               description := some (orDefault (safeStr row.description) "Care Plan"),
               code := orNone (safeStr row.code), value := none, unitStr := none,
               flaggedAbnormal := false, sourceDataset := "csv",
               sourceFile := "data/csv/careplans.csv", context := [] } : EventBody))
        let immunizationEvents := (st.immunizations.filter (fun r => rowMatches r.patient pid)).map
          (fun row =>
            ({ category := "treatment_change", subtype := "immunization",
               timeStart := parseAnyDatetime row.date, timeEnd := none,
               description := some (orDefault (safeStr row.description) "Immunization"),
               code := orNone (safeStr row.code), value := none, unitStr := none,
               flaggedAbnormal := false, sourceDataset := "csv",
               sourceFile := "data/csv/immunizations.csv", context := [] } : EventBody))
        encounterEvents ++ conditionEvents ++ medicationEvents ++ restartEvents ++
          observationEvents ++ procedureEvents ++ careplanEvents ++ immunizationEvents

/-- Tags treated as time-bearing by `_build_ccda_events`. -/
def targetTimeTags : List String := ["effectiveTime", "low", "high", "time"]

/-- Tags treated as clinical context ancestors by `_build_ccda_events`. -/
def clinicalContextTags : List String :=
  ["encounter", "observation", "procedure", "substanceAdministration", "act", "organizer"]

mutual

/-- Document-order traversal paired with the ancestor chain
(nearest ancestor first), the information `parent_map` provides. -/
def nodeWalk (anc : List XNode) : XNode → List (XNode × List XNode)
  | .mk t a x cs => (.mk t a x cs, anc) :: listWalk (.mk t a x cs :: anc) cs

def listWalk (anc : List XNode) : List XNode → List (XNode × List XNode)
  | [] => []
  | n :: ns => nodeWalk anc n ++ listWalk anc ns

end

/-- `nearest_section_title`: walk up to the first `section` ancestor and
return its stripped non-empty title text, else nothing. -/
def nearestSectionTitle (anc : List XNode) : Option String :=
  match anc.find? (fun n => n.tag = "section") with
  | none => none
  | some sec =>
      match sec.findChild "title" with
      | none => none
      | some t =>
          match t.text with
          | none => none
          | some txt => if pyStrip txt ≠ "" then some (pyStrip txt) else none

/-- `nearest_clinical_context`: the nearest ancestor with a clinical tag. -/
def nearestClinicalContext (anc : List XNode) : Option XNode :=
  anc.find? (fun n => clinicalContextTags.contains n.tag)

/-- The subtype renaming of `_build_ccda_events`. -/
def ccdaSubtype (tag : String) : String :=
  if tag = "low" then "ccda_period_start"
  else if tag = "high" then "ccda_period_end"
  else if tag = "time" then "ccda_time"
  else if tag = "effectiveTime" then "ccda_effective_time"
  else "ccda_" ++ tag

/-- `_build_ccda_events` for one parsed document. -/
def ccdaDocBodies (fileName : String) (root : XNode) : List EventBody :=
  (nodeWalk [] root).filterMap (fun na =>
    let node := na.1
    let anc := na.2
    let tag := node.tag
    if targetTimeTags.contains tag then
      let attrTime := node.attr "value"
      let rawTime := if ¬ optTruthy attrTime ∧ optTruthy node.text then node.text else attrTime
      match parseAnyDatetime rawTime with
      | none => none
      | some timeValue =>
          let ctx := nearestClinicalContext anc
          let ctxTag := ctx.map XNode.tag
          let codeNode := ctx.bind (fun c => c.findChild "code")
          let code := codeNode.bind (fun cn => orNone (safeStr (cn.attr "code")))
          let display := codeNode.bind (fun cn => orNone (safeStr (cn.attr "displayName")))
          some
            ({ category := "clinical_context_time", subtype := ccdaSubtype tag,
               timeStart := some timeValue, timeEnd := none,
               description := some ((display.getD (ctxTag.getD "C-CDA time point"))),
               code := code, value := none, unitStr := none, flaggedAbnormal := false,
               sourceDataset := "ccda", sourceFile := fileName,
               context := [("section_title", ctxOpt (nearestSectionTitle anc)),
                 ("context_tag", ctxOpt ctxTag), ("time_tag", .s tag),
                 ("raw_time", ctxOpt rawTime)] } : EventBody)
    else none)

/-- `_build_ccda_events`: parse failures contribute nothing. -/
def buildCcdaBodies (docs : List DocFile) : List EventBody :=
  docs.flatMap (fun d =>
    match d.xml with
    | none => []
    | some root => ccdaDocBodies d.name root)

/-- `_extract_fhir_times`. -/
def extractFhirTimes (r : FhirResource) :
    List (String × Option String × Option String) :=
  let out :=
    (if optTruthy r.effectiveDateTime then
      [("effectiveDateTime", parseAnyDatetime r.effectiveDateTime, (none : Option String))]
    else []) ++
    (if optTruthy r.issued then
      [("issued", parseAnyDatetime r.issued, none)] else []) ++
    (if optTruthy r.recordedDate then
      [("recordedDate", parseAnyDatetime r.recordedDate, none)] else []) ++
    (if optTruthy r.onsetDateTime then
      [("onsetDateTime", parseAnyDatetime r.onsetDateTime, none)] else []) ++
    (match r.onsetPeriod with
     | some p => [("onsetPeriod", parseAnyDatetime p.1, parseAnyDatetime p.2)]
     | none => []) ++
    (match r.period with
     | some p => [("period", parseAnyDatetime p.1, parseAnyDatetime p.2)]
     | none => [])
  out.filter (fun x => optTruthy x.2.1 || optTruthy x.2.2)

def abnormalCodes : List String := ["H", "HH", "L", "LL", "A", "AA"]

/-- The resource-type to category/subtype mapping of `_build_fhir_events`. -/
def fhirCategorySubtype (rtype : String) : String × String :=
  if rtype = "Condition" then ("diagnosis_onset", "condition_event")
  else if rtype = "MedicationRequest" || rtype = "MedicationStatement" ||
      rtype = "MedicationAdministration" then ("treatment_change", "medication_event")
  else if rtype = "Procedure" || rtype = "CarePlan" || rtype = "ServiceRequest" then
    ("treatment_change", pyLower rtype ++ "_event")
  else if rtype = "Encounter" then ("admission_discharge", "encounter_cycle")
  else if rtype = "Observation" then ("lab_trend", "observation")
  else ("clinical_context_time", pyLower rtype ++ "_time")

/-- `_build_fhir_events` for one bundle entry. -/
def fhirResourceBodies (dtype fileName : String) (r : FhirResource) : List EventBody :=
  let rtype := orDefault (safeStr r.resourceType) "Resource"
  let rid := orNone (safeStr r.rid)
  let coding0 : Coding := (r.codeObj.map CodeObj.coding).getD [] |>.headD ⟨none, none⟩
  let code := orNone (safeStr coding0.code)
  let display := orDefault (safeStr (r.codeObj.bind CodeObj.text))
    (orDefault (safeStr coding0.display) (orDefault (safeStr r.description) rtype))
  let points := extractFhirTimes r
  let points :=
    if rtype = "Encounter" ∧ points = [] then
      let p := r.period.getD (none, none)
      [("period", parseAnyDatetime p.1, parseAnyDatetime p.2)]
    else points
  let isAbnormal := rtype = "Observation" &&
    r.interpretation.any (fun coding =>
      coding.any (fun c => abnormalCodes.contains (pyUpper (safeStr c))))
  let cs := fhirCategorySubtype rtype
  let value :=
    if rtype = "Observation" then
      match r.valueQuantity with
      | some q => orNone (safeStr q.qval)
      | none =>
          match r.valueString with
          | some vs => orNone (safeStr (some vs))
          | none => none
    else none
  let unitStr :=
    if rtype = "Observation" then
      match r.valueQuantity with
      | some q => orNone (safeStr q.qunit)
      | none => none
    else none
  points.filterMap (fun lp =>
    let tStart := lp.2.1
    let tEnd := lp.2.2
    if ¬ optTruthy tStart ∧ ¬ optTruthy tEnd then none
    else
      some
        ({ category := cs.1, subtype := cs.2 ++ ":" ++ lp.1,
           timeStart := if optTruthy tStart then tStart else tEnd,
           timeEnd := if optTruthy tStart then tEnd else none,
           description := some display, code := code, value := value,
           unitStr := unitStr, flaggedAbnormal := isAbnormal,
           sourceDataset := dtype, sourceFile := fileName,
           context := [("resource_type", .s rtype), ("resource_id", ctxOpt rid)] } :
          EventBody))

/-- `_build_fhir_events`: non-`.json` files and decode failures contribute
nothing. -/
def buildFhirBodies (docs : List (String × DocFile)) : List EventBody :=
  docs.flatMap (fun fd =>
    if pyLower (pathSuffix fd.2.name) ≠ ".json" then []
    else
      match fd.2.fhirJson with
      | none => []
      | some entries => entries.flatMap (fhirResourceBodies fd.1 fd.2.name))

/-- `_build_export_events`: enrichment from the first export row whose
`patient_id` or `medical_record_number` equals the raw identifier. -/
def buildExportBodies (st : TemporalStore) (identifier : String) : List EventBody :=
  match st.identity.exportRows.find? (fun r =>
    identifier = safeStr r.patientId ∨ identifier = safeStr r.mrn) with
  | none => []
  | some row =>
      let exportPath := st.identity.exportPath
      (row.diagnoses.filterMap (fun d =>
        match parseAnyDatetime d.dateDiagnosed with
        | none => none
        | some t =>
            some
              ({ category := "diagnosis_onset", subtype := "diagnosis_start",
                 timeStart := some t, timeEnd := none,
                 description := some (orDefault (safeStr d.condition) "Diagnosis"),
                 code := orNone (safeStr d.icdCode), value := none, unitStr := none,
                 flaggedAbnormal := false, sourceDataset := "profile_export",
                 sourceFile := exportPath,
                 context := [("status", ctxOpt (orNone (safeStr d.status)))] } :
                EventBody))) ++
      (row.currentMedications.filterMap (fun m =>
        match parseAnyDatetime m.prescribedAt with
        | none => none
        | some t =>
            some
              ({ category := "treatment_change", subtype := "medication_start",
                 timeStart := some t, timeEnd := none,
                 description := some (orDefault (safeStr m.mname) "Medication"),
                 code := none, value := none, unitStr := none, flaggedAbnormal := false,
                 sourceDataset := "profile_export", sourceFile := exportPath,
                 context := [("dosage", ctxOpt (orNone (safeStr m.dosage)))] } :
                EventBody))) ++
      (row.labResults.filterMap (fun lab =>
        match parseAnyDatetime lab.datePerformed with
        | none => none
        | some t =>
            some
              ({ category := "lab_trend", subtype := "observation",
                 timeStart := some t, timeEnd := none,
                 description := some (orDefault (safeStr lab.testName) "Lab"),
                 code := none, value := orNone (safeStr lab.result),
                 unitStr := orNone (safeStr lab.lunit), flaggedAbnormal := lab.flagged,
                 sourceDataset := "profile_export", sourceFile := exportPath,
                 context := [] } :
                EventBody))) ++
      (match parseAnyDatetime row.admissionDate with
       | none => []
       | some t =>
           [({ category := "admission_discharge", subtype := "admission",
               timeStart := some t, timeEnd := none,
               description := some "Admission date", code := none, value := none,
               unitStr := none, flaggedAbnormal := false,
               sourceDataset := "profile_export", sourceFile := exportPath,
               context := [] } : EventBody)])

/-! ### Episode detection -/

inductive DetVal where
  | fr (v : Frac)
  | n (v : Nat)
  | s (v : String)
deriving DecidableEq

structure Episode where
  episodeType : String
  timeStart : Option String
  timeEnd : Option String
  description : Option String
  code : Option String
  subtype : Option String
  sourceDataset : Option String
  testName : Option String
  eventIds : List Nat
  details : List (String × DetVal)
deriving DecidableEq

/-- Python `float()` on the `str()` of an event value: the finite-decimal
fragment (sign, digits, optional fraction part).  The `inf`/`nan`
literals, underscores and exponents of the full grammar are not modelled;
none of them changes whether a trend episode is emitted. -/
def parseFloatFrac (s : String) : Option Frac :=
  let cs := pyStripChars s.data
  let signAndRest : Int × List Char :=
    match cs with
    | '+' :: r => (1, r)
    | '-' :: r => (-1, r)
    | _ => (1, cs)
  let sgn := signAndRest.1
  let cs2 := signAndRest.2
  let intPart := cs2.takeWhile Char.isDigit
  let rest := cs2.dropWhile Char.isDigit
  match rest with
  | [] =>
      if intPart = [] then none
      else some ⟨sgn * (digitsVal intPart : Nat), 1⟩
  | '.' :: fr =>
      let fracPart := fr.takeWhile Char.isDigit
      let rest2 := fr.dropWhile Char.isDigit
      if rest2 ≠ [] then none
      else if intPart = [] ∧ fracPart = [] then none
      else
        let scale : Int := fracPart.foldl (fun acc _ => acc * 10) 1
        some ⟨sgn * ((digitsVal intPart : Nat) * scale + (digitsVal fracPart : Nat)), scale⟩
  | _ => none

/-- `float(str(value))` for an optional value (`str(None)` never parses). -/
def pyFloatOfValue : Option String → Option Frac
  | none => none
  | some s => parseFloatFrac s

/-- The case-insensitive grouping key of `_abnormal_lab_episodes`:
`(description or "unknown").strip().lower()`. -/
def labGroupKey (e : Event) : String :=
  let base := match e.description with
    | some d => if d = "" then "unknown" else d
    | none => "unknown"
  pyLower (pyStrip base)

/-- In-group sort of `_abnormal_lab_episodes`
(`key=lambda x: x.get("time_start") or ""`). -/
def labItemLe (a b : Event) : Bool := pyStrLe (a.timeStart.getD "") (b.timeStart.getD "")

/-- The lab events admitted by `_abnormal_lab_episodes`: category
`lab_trend` with a truthy `time_start`. -/
def labEventsOf (timeline : List Event) : List Event :=
  timeline.filter (fun e => e.category = "lab_trend" && optTruthy e.timeStart)

/-- One test-name group of `_abnormal_lab_episodes`, sorted by
`time_start`. -/
def groupItems (labEvents : List Event) (k : String) : List Event :=
  insSort labItemLe (labEvents.filter (fun e => labGroupKey e = k))

/-- The `(time_start, float(value))` points of one group, in sorted
order, keeping only parseable values. -/
def groupNumeric (labEvents : List Event) (k : String) :
    List (Option String × Frac) :=
  (groupItems labEvents k).filterMap (fun it =>
    (pyFloatOfValue it.value).map (fun v => (it.timeStart, v)))

/-- The episodes `_abnormal_lab_episodes` emits for one test-name group. -/
def labGroupEpisodes (labEvents : List Event) (k : String) : List Episode :=
  let items := groupItems labEvents k
  let numeric := groupNumeric labEvents k
  let abnormalPoints := items.filter (fun it => it.flaggedAbnormal)
  (if abnormalPoints ≠ [] then
    [({ episodeType := "abnormal_lab_flag",
        timeStart := (abnormalPoints.head?).bind (fun e => e.timeStart),
        timeEnd := (abnormalPoints.getLast?).bind (fun e => e.timeStart),
        description := none, code := none, subtype := none, sourceDataset := none,
        testName := (items.head?).bind (fun e => e.description),
        eventIds := abnormalPoints.map Event.eventId,
        details := [("flags_count", .n abnormalPoints.length)] } : Episode)]
  else []) ++
  (if 3 ≤ numeric.length then
    match numeric.head?, numeric.getLast? with
    | some firstPt, some lastPt =>
        if firstPt.2.toRat ≠ 0 then
          let changeFr := (lastPt.2.sub firstPt.2).div firstPt.2.fabs
          if Frac.le ⟨2, 10⟩ changeFr.fabs then
            let trend := if Frac.lt ⟨0, 1⟩ changeFr then "increasing" else "decreasing"
            [({ episodeType := "abnormal_lab_trend",
                timeStart := firstPt.1, timeEnd := lastPt.1,
                description := none, code := none, subtype := none, sourceDataset := none,
                testName := (items.head?).bind (fun e => e.description),
                eventIds := items.map Event.eventId,
                details := [("trend", .s trend),
                  ("relative_change", .fr (changeFr.roundScaled 1000)),
                  ("points", .n numeric.length)] } : Episode)]
          else []
        else []
    | _, _ => []
  else [])

/-- `_abnormal_lab_episodes`: group lab events case-insensitively by test
name (in first-appearance order, as the `defaultdict` iterates) and emit
flag and trend episodes per group. -/
def abnormalLabEpisodes (timeline : List Event) : List Episode :=
  let labEvents := labEventsOf timeline
  ((labEvents.map labGroupKey).dedup).flatMap (labGroupEpisodes labEvents)

structure Episodes where
  diagnosisOnset : List Episode
  treatmentChange : List Episode
  abnormalLabTrend : List Episode
  admissionDischargeCycles : List Episode
deriving DecidableEq

/-- `_build_episodes`. -/
def buildEpisodes (timeline : List Event) : Episodes :=
  { diagnosisOnset := (timeline.filter (fun e =>
      e.category = "diagnosis_onset" && pyContains e.subtype "start")).map (fun e =>
      ({ episodeType := "diagnosis_onset", timeStart := e.timeStart, timeEnd := none,
         description := e.description, code := e.code, subtype := none,
         sourceDataset := none, testName := none, eventIds := [e.eventId],
         details := [] } : Episode))
    treatmentChange := (timeline.filter (fun e =>
      e.category = "treatment_change" &&
        (["start", "stop", "change", "restart", "procedure", "careplan"].any
          (fun kw => pyContains e.subtype kw)))).map (fun e =>
      ({ episodeType := "treatment_change", timeStart := e.timeStart,
         timeEnd := e.timeEnd, description := e.description, code := none,
         subtype := some e.subtype, sourceDataset := none, testName := none,
         eventIds := [e.eventId], details := [] } : Episode))
    abnormalLabTrend := abnormalLabEpisodes timeline
    admissionDischargeCycles := (timeline.filter (fun e =>
      e.category = "admission_discharge" && pyContains e.subtype "cycle")).map (fun e =>
      ({ episodeType := "admission_discharge_cycle", timeStart := e.timeStart,
         timeEnd := e.timeEnd, description := e.description, code := none,
         subtype := none, sourceDataset := some e.sourceDataset, testName := none,
         eventIds := [e.eventId], details := [] } : Episode)) }

structure SourceCounts where
  csvEvents : Nat
  ccdaEvents : Nat
  fhirEvents : Nat
  profileExportEvents : Nat
  timelineTotal : Nat
  diagnosisOnsetEpisodes : Nat
  treatmentChangeEpisodes : Nat
  abnormalLabTrendEpisodes : Nat
  admissionDischargeCycleEpisodes : Nat
deriving DecidableEq

structure TemporalResult where
  identity : Option ResolvedIdentity
  timeline : List Event
  episodes : Episodes
  sourceCounts : SourceCounts

/-- The final sort key of `build`:
`(e.get("time_start") or "", e.get("event_id") or "")`, with ids compared
by their counter values. -/
def timelineLe (a b : Event) : Bool :=
  pyStrLt (a.timeStart.getD "") (b.timeStart.getD "") ||
    (a.timeStart.getD "" = b.timeStart.getD "" && a.eventId ≤ b.eventId)

/-- `_doc_paths_for_patient` (same per-family sorted glob as
`_candidate_documents`). -/
def docPathsForPatient (ist : IdentityStore) (patientUuid : Option String) :
    List (String × DocFile) :=
  match patientUuid with
  | none => []
  | some pu => if pu = "" then [] else candidateDocuments ist pu

/-- `TemporalEvolutionAgent.build`. -/
def temporalBuild (st : TemporalStore) (identifier : String) :
    Except Unit TemporalResult := do
  let resolved ← resolveOne st.identity identifier
  let patientUuid := resolved.bind ResolvedIdentity.csvPatientUuid
  let csvBodies := buildCsvBodies st patientUuid
  let docPaths := docPathsForPatient st.identity patientUuid
  let ccdaBodies := buildCcdaBodies ((docPaths.filter (fun p => p.1 = "ccda")).map (fun p => p.2))
  let fhirBodies := buildFhirBodies (docPaths.filter (fun p => p.1 ≠ "ccda"))
  let exportBodies := buildExportBodies st identifier
  let events := numberBodies (csvBodies ++ ccdaBodies ++ fhirBodies ++ exportBodies) 0
  let timeline := insSort timelineLe (events.filter (fun e => optTruthy e.timeStart))
  let episodes := buildEpisodes timeline
  let counts : SourceCounts :=
    { csvEvents := csvBodies.length, ccdaEvents := ccdaBodies.length,
      fhirEvents := fhirBodies.length, profileExportEvents := exportBodies.length,
      timelineTotal := timeline.length,
      diagnosisOnsetEpisodes := episodes.diagnosisOnset.length,
      treatmentChangeEpisodes := episodes.treatmentChange.length,
      abnormalLabTrendEpisodes := episodes.abnormalLabTrend.length,
      admissionDischargeCycleEpisodes := episodes.admissionDischargeCycles.length }
  return { identity := resolved, timeline := timeline, episodes := episodes,
           sourceCounts := counts }

/-! ### Context fusion agent

`_dt` converts timestamps to naive `datetime`s (aware values are shifted
into the host timezone, modelled here as UTC) and the agent compares and
subtracts them; we represent such datetimes by their microsecond count
from the epoch, which carries the same order and differences. -/

/-- Days from 1970-01-01 in the proleptic Gregorian calendar
(floor-division form of the standard civil-date algorithm). -/
def daysFromCivil (y m d : Nat) : Int :=
  let yi : Int := (y : Int) - (if m ≤ 2 then 1 else 0)
  let era : Int := Int.ediv yi 400
  let yoe : Int := yi - era * 400
  let mp : Int := (m : Int) + (if 2 < m then -3 else 9)
  let doy : Int := Int.ediv (153 * mp + 2) 5 + (d : Int) - 1
  let doe : Int := yoe * 365 + Int.ediv yoe 4 - Int.ediv yoe 100 + doy
  era * 146097 + doe - 719468

/-- Microseconds from the epoch of the wall-clock reading. -/
def wallEpochUs (dt : PyDateTime) : Int :=
  ((daysFromCivil dt.year dt.month dt.day) * 86400 +
    (dt.hour : Int) * 3600 + (dt.minute : Int) * 60 + (dt.second : Int)) * 1000000 +
    (dt.micro : Int)

/-- `_dt` of `context_fusion_agent`: parse, then normalise aware values to
a naive local datetime (host timezone modelled as UTC). -/
def dtVal (raw : Option String) : Option Int :=
  let text := safeStr raw
  if text = "" then none
  else
    (pyFromIsoformat (replaceZ text)).map (fun dt =>
      match dt.offUs with
      | none => wallEpochUs dt
      | some off => wallEpochUs dt - off)

structure CondCtx where
  description : String
  code : Option String
  start : Option Int
  stop : Option Int
  encounterId : Option String
deriving DecidableEq

structure MedCtx where
  description : String
  code : Option String
  start : Option Int
  stop : Option Int
  encounterId : Option String
  reasonCode : Option String
  reasonDescription : Option String
deriving DecidableEq

structure LabCtx where
  description : String
  code : Option String
  date : Option Int
  value : Option String
  units : Option String
  encounterId : Option String
deriving DecidableEq

structure ProcCtx where
  description : String
  code : Option String
  date : Option Int
  encounterId : Option String
  reasonCode : Option String
  reasonDescription : Option String
deriving DecidableEq

structure FusionIndexes where
  encounters : List (String × EncounterRow)
  providers : List (String × ProviderRow)
  organizations : List (String × OrganizationRow)
  conditions : List CondCtx
  medications : List MedCtx
  labs : List LabCtx
  procedures : List ProcCtx

/-- `ContextFusionAgent._indexes`. -/
def fusionIndexes (st : TemporalStore) (patientUuid : Option String) : FusionIndexes :=
  if ¬ optTruthy patientUuid then ⟨[], [], [], [], [], [], []⟩
  else
    let pid := pyLower (patientUuid.getD "")
    let providers := st.providers.foldl (fun acc r =>
      if safeStr r.rid ≠ "" then odUpsert acc (r.rid.getD "") r else acc) []
    let orgs := st.organizations.foldl (fun acc r =>
      if safeStr r.rid ≠ "" then odUpsert acc (r.rid.getD "") r else acc) []
    let encounters := st.encounters.foldl (fun acc r =>
      if pyLower (safeStr r.patient) ≠ pid then acc
      else
        let rid := safeStr r.rid
        if rid ≠ "" then odUpsert acc rid r else acc) []
    let conditions := (st.conditions.filter (fun r => pyLower (safeStr r.patient) = pid)).map
      (fun r =>
        ({ description := orDefault (safeStr r.description) "Condition",
           code := orNone (safeStr r.code), start := dtVal r.start, stop := dtVal r.stop,
           encounterId := orNone (safeStr r.encounter) } : CondCtx))
    let medications := (st.medications.filter (fun r => pyLower (safeStr r.patient) = pid)).map
      (fun r =>
        ({ description := orDefault (safeStr r.description) "Medication",
           code := orNone (safeStr r.code), start := dtVal r.start, stop := dtVal r.stop,
           encounterId := orNone (safeStr r.encounter),
           reasonCode := orNone (safeStr r.reasonCode),
           reasonDescription := orNone (safeStr r.reasonDescription) } : MedCtx))
    let labs := (st.observations.filter (fun r => pyLower (safeStr r.patient) = pid)).map
      (fun r =>
        ({ description := orDefault (safeStr r.description) "Observation",
           code := orNone (safeStr r.code), date := dtVal r.date,
           value := orNone (safeStr r.value), units := orNone (safeStr r.units),
           encounterId := orNone (safeStr r.encounter) } : LabCtx))
    let procedures := (st.procedures.filter (fun r => pyLower (safeStr r.patient) = pid)).map
      (fun r =>
        ({ description := orDefault (safeStr r.description) "Procedure",
           code := orNone (safeStr r.code), date := dtVal r.date,
           encounterId := orNone (safeStr r.encounter),
           reasonCode := orNone (safeStr r.reasonCode),
           reasonDescription := orNone (safeStr r.reasonDescription) } : ProcCtx))
    ⟨encounters, providers, orgs, conditions, medications, labs, procedures⟩

/-- Decimal rendering of a counter (`str(n)`), for `_s` on int context
values. -/
def natStr (n : Nat) : String :=
  String.mk ((padChars 6 n).dropWhile (fun c => c == '0' && n ≠ 0) |>.reverse.take 6 |>.reverse)

/-- `_s(value)` on one context value. -/
def ctxValSafeStr : CtxVal → String
  | .s v => pyStrip v
  | .n v => natStr v
  | .null => ""

/-- A context value read back as the optional string it models. -/
def ctxRaw (ctx : List (String × CtxVal)) (k : String) : Option String :=
  match odGet ctx k with
  | some (.s v) => some v
  | _ => none

/-- One step of the nearest-start fallback loop of
`_encounter_for_event`: keep the encounter with the smallest
`abs(event_dt - start)` seen so far. -/
def nearestStep (t : Int) (best : Option (Int × EncounterRow))
    (kv : String × EncounterRow) : Option (Int × EncounterRow) :=
  match dtVal kv.2.start with
  | none => best
  | some st =>
      let delta := |t - st|
      match best with
      | none => some (delta, kv.2)
      | some b => if delta < b.1 then some (delta, kv.2) else best

/-- `ContextFusionAgent._encounter_for_event`. -/
def encounterForEvent (eventDt : Option Int) (e : Event) (idx : FusionIndexes) :
    Option EncounterRow :=
  let eid := ctxValSafeStr ((odGet e.context "encounter_id").getD .null)
  match (if eid ≠ "" then odGet idx.encounters eid else none) with
  | some enc => some enc
  | none =>
      match eventDt with
      | none => none
      | some t =>
          match idx.encounters.find? (fun kv =>
            match dtVal kv.2.start, dtVal kv.2.stop with
            | some st, some sp => decide (st ≤ t ∧ t ≤ sp)
            | _, _ => false) with
          | some kv => some kv.2
          | none =>
              (idx.encounters.foldl (nearestStep t) none).map (fun b => b.2)

/-- `ContextFusionAgent._active_in_window`: an open-ended interval is
active at any time at or after its start; an item with no start is never
active. -/
def activeInWindow (itemStart itemStop t : Option Int) : Bool :=
  match t with
  | none => false
  | some tv =>
      if (match itemStart with
          | some s => decide (tv < s)
          | none => false) then false
      else if (match itemStop with
          | some s => decide (s < tv)
          | none => false) then false
      else itemStart.isSome

/-- `ContextFusionAgent._nearby` with the default seven-day window. -/
def nearby (sourceTime targetTime : Option Int) : Bool :=
  match sourceTime, targetTime with
  | some a, some b => decide (|a - b| ≤ 7 * 86400 * 1000000)
  | _, _ => false

structure ClinicalContext where
  encounterId : Option String
  encounterClass : Option String
  provider : Option String
  facility : Option String
  reasonCode : Option String
  reasonDescription : Option String
  relatedDiagnosis : List (String × Option String)
  relatedMedication : List (String × Option String)
  relatedLab : List (String × Option String × Option String × Option String)
  relatedProcedure : List (String × Option String)
deriving DecidableEq

/-- `ContextFusionAgent._related_context`. -/
def relatedContext (e : Event) (eventDt : Option Int) (idx : FusionIndexes) :
    ClinicalContext :=
  let encounter := encounterForEvent eventDt e idx
  let encounterId := encounter.bind (fun enc => orNone (safeStr enc.rid))
  let encounterClass := encounter.bind (fun enc => orNone (safeStr enc.encounterClass))
  let reasonCode := encounter.bind (fun enc => orNone (safeStr enc.reasonCode))
  let reasonDescription := encounter.bind (fun enc => orNone (safeStr enc.reasonDescription))
  let providerName := encounter.bind (fun enc =>
    orNone (safeStr ((odGet idx.providers (safeStr enc.provider)).bind ProviderRow.name)))
  let facilityName := encounter.bind (fun enc =>
    orNone (safeStr ((odGet idx.organizations (safeStr enc.organization)).bind
      OrganizationRow.name)))
  let encMatches : Option String → Bool := fun itemEnc =>
    match encounterId with
    | some eidv => itemEnc = some eidv
    | none => false
  { encounterId := encounterId
    encounterClass := encounterClass
    provider := providerName
    facility := facilityName
    reasonCode := reasonCode
    reasonDescription := reasonDescription
    relatedDiagnosis := ((idx.conditions.filter (fun c =>
        activeInWindow c.start c.stop eventDt || encMatches c.encounterId)).map
      (fun c => (c.description, c.code))).take 6
    relatedMedication := ((idx.medications.filter (fun m =>
        activeInWindow m.start m.stop eventDt || encMatches m.encounterId)).map
      (fun m => (m.description, m.code))).take 6
    relatedLab := ((idx.labs.filter (fun l =>
        encMatches l.encounterId || nearby l.date eventDt)).map
      (fun l => (l.description, l.code, l.value, l.units))).take 8
    relatedProcedure := ((idx.procedures.filter (fun p =>
        encMatches p.encounterId || nearby p.date eventDt)).map
      (fun p => (p.description, p.code))).take 6 }

structure Provenance where
  sourceFile : String
  sourceType : String
  eventId : Nat
  rowOrResourceId : Option String
  resourceType : Option String
deriving DecidableEq

/-- `ContextFusionAgent._provenance`. -/
def provenanceOf (e : Event) : Provenance :=
  { sourceFile := e.sourceFile
    sourceType := e.sourceDataset
    eventId := e.eventId
    rowOrResourceId :=
      match ctxRaw e.context "resource_id" with
      | some v => if v ≠ "" then some v else ctxRaw e.context "encounter_id"
      | none => ctxRaw e.context "encounter_id"
    resourceType := ctxRaw e.context "resource_type" }

/-- `dict(e)` plus the two added blocks: every original field is carried
unchanged in `base`. -/
structure FusedEvent where
  base : Event
  clinicalContext : ClinicalContext
  provenance : Provenance

structure FusionResult where
  identity : Option ResolvedIdentity
  timeline : List FusedEvent
  episodes : Episodes
  inputTimelineEvents : Nat
  fusedTimelineEvents : Nat

/-- `ContextFusionAgent.build`. -/
def fusionBuild (st : TemporalStore) (identifier : String) :
    Except Unit FusionResult := do
  let temporal ← temporalBuild st identifier
  let patientUuid := temporal.identity.bind ResolvedIdentity.csvPatientUuid
  let idx := fusionIndexes st patientUuid
  let fused := temporal.timeline.map (fun e =>
    ({ base := e, clinicalContext := relatedContext e (dtVal e.timeStart) idx,
       provenance := provenanceOf e } : FusedEvent))
  return { identity := temporal.identity, timeline := fused,
           episodes := temporal.episodes,
           inputTimelineEvents := temporal.timeline.length,
           fusedTimelineEvents := fused.length }

/-! ### Concrete stores for witnesses -/

/-- A data root with no tabular dataset directory at all. -/
def noCsvStore : TemporalStore :=
  { identity := { patientsFile := none, docs := [], exportRows := [], exportPath := "" },
    encounters := [], conditions := [], medications := [], observations := [],
    procedures := [], careplans := [], immunizations := [], providers := [],
    organizations := [] }

def samplePatientUuid : String := "11111111-1111-1111-1111-111111111111"

def sampleObsRow (date v : String) : ObservationRow :=
  { patient := some samplePatientUuid, date := some date,
    description := some "Glucose", value := some v, units := some "mg/dL",
    code := some "2345-7", encounter := none, otype := some "numeric" }

def samplePatientRow : PatientRow :=
  { pid := some samplePatientUuid, first := some "Ann", last := some "Lee",
    birthdate := some "1980-01-02", gender := some "F" }

/-- A one-patient store with four glucose observations ending in a thirty
percent rise. -/
def sampleStore : TemporalStore :=
  { identity :=
      { patientsFile := some [samplePatientRow],
        docs := [], exportRows := [], exportPath := "" },
    encounters := [], conditions := [], medications := [],
    observations := [sampleObsRow "2020-01-01" "10", sampleObsRow "2020-01-02" "10",
      sampleObsRow "2020-01-03" "10", sampleObsRow "2020-01-04" "13"],
    procedures := [], careplans := [], immunizations := [], providers := [],
    organizations := [] }

def emptyTemporalResult : TemporalResult :=
  { identity := none, timeline := [], episodes := ⟨[], [], [], []⟩,
    sourceCounts := ⟨0, 0, 0, 0, 0, 0, 0, 0, 0⟩ }

/-- The successful build over `sampleStore`. -/
def sampleRes : TemporalResult :=
  match temporalBuild sampleStore samplePatientUuid with
  | .ok r => r
  | .error _ => emptyTemporalResult

/-- C1: with the tabular directory absent, `build` propagates the
`FileNotFoundError` that `_load_csv_patients` raises from opening
`patients.csv` without an existence check, instead of returning the empty
result the specification requires. -/
theorem c1_missing_tabular_raises :
    temporalBuild noCsvStore "patient-1" = .error () ∧
    resolve noCsvStore.identity "patient-1" = .error () ∧
    "patient-1" ≠ "" := by
  refine ⟨?_, ?_, by decide⟩ <;> rfl

/-! ### Order facts about the timeline sort key -/

theorem pyStrLt_irrefl (a : String) : pyStrLt a a = false := charsLt_irrefl a.data

theorem pyStrLt_trans {a b c : String}
    (hab : pyStrLt a b = true) (hbc : pyStrLt b c = true) : pyStrLt a c = true :=
  charsLt_trans hab hbc

theorem pyStrLt_total (a b : String) :
    pyStrLt a b = true ∨ pyStrLt b a = true ∨ a = b := by
  rcases charsLt_total a.data b.data with h | h | h
  · exact Or.inl h
  · exact Or.inr (Or.inl h)
  · exact Or.inr (Or.inr (String.ext h))

theorem timelineLe_trans (a b c : Event)
    (hab : timelineLe a b = true) (hbc : timelineLe b c = true) :
    timelineLe a c = true := by
  simp only [timelineLe, Bool.or_eq_true, Bool.and_eq_true, decide_eq_true_eq] at hab hbc ⊢
  rcases hab with h1 | ⟨h1, h1'⟩
  · rcases hbc with h2 | ⟨h2, h2'⟩
    · exact Or.inl (pyStrLt_trans h1 h2)
    · exact Or.inl (h2 ▸ h1)
  · rcases hbc with h2 | ⟨h2, h2'⟩
    · exact Or.inl (h1 ▸ h2)
    · exact Or.inr ⟨h1.trans h2, Nat.le_trans h1' h2'⟩

theorem timelineLe_total (a b : Event) :
    timelineLe a b = true ∨ timelineLe b a = true := by
  simp only [timelineLe, Bool.or_eq_true, Bool.and_eq_true, decide_eq_true_eq]
  rcases pyStrLt_total (a.timeStart.getD "") (b.timeStart.getD "") with h | h | h
  · exact Or.inl (Or.inl h)
  · exact Or.inr (Or.inl h)
  · rcases Nat.le_total a.eventId b.eventId with h2 | h2
    · exact Or.inl (Or.inr ⟨h, h2⟩)
    · exact Or.inr (Or.inr ⟨h.symm, h2⟩)

theorem numberBodies_mem_gt :
    ∀ (bodies : List EventBody) (n : Nat) (e : Event),
      e ∈ numberBodies bodies n → n < e.eventId := by
  intro bodies
  induction bodies with
  | nil => intro n e h; simp [numberBodies] at h
  | cons b bs ih =>
      intro n e h
      rcases List.mem_cons.mp h with rfl | h2
      · exact Nat.lt_succ_self n
      · exact Nat.lt_trans (Nat.lt_succ_self n) (ih (n + 1) e h2)

theorem numberBodies_pairwise (bodies : List EventBody) (n : Nat) :
    List.Pairwise (fun a b => a.eventId < b.eventId) (numberBodies bodies n) := by
  induction bodies generalizing n with
  | nil => simp [numberBodies]
  | cons b bs ih =>
      refine List.Pairwise.cons ?_ (ih (n + 1))
      intro e he
      exact numberBodies_mem_gt bs (n + 1) e he

/-- Extraction of the timeline pipeline from a successful `build`. -/
theorem temporalBuild_ok (st : TemporalStore) (q : String) (res : TemporalResult)
    (h : temporalBuild st q = .ok res) :
    ∃ resolved, resolveOne st.identity q = .ok resolved ∧
      res.timeline = insSort timelineLe
        ((numberBodies
          (buildCsvBodies st (resolved.bind ResolvedIdentity.csvPatientUuid) ++
            buildCcdaBodies
              (((docPathsForPatient st.identity
                  (resolved.bind ResolvedIdentity.csvPatientUuid)).filter
                (fun p => p.1 = "ccda")).map (fun p => p.2)) ++
            buildFhirBodies
              ((docPathsForPatient st.identity
                  (resolved.bind ResolvedIdentity.csvPatientUuid)).filter
                (fun p => p.1 ≠ "ccda")) ++
            buildExportBodies st q) 0).filter
          (fun e => optTruthy e.timeStart)) ∧
      res.episodes = buildEpisodes res.timeline := by
  unfold temporalBuild at h
  cases hr : resolveOne st.identity q with
  | error e => rw [hr] at h; exact absurd h (by simp [Bind.bind, Except.bind])
  | ok resolved =>
      rw [hr] at h
      simp only [Bind.bind, Except.bind, pure, Except.pure, Except.ok.injEq] at h
      refine ⟨resolved, rfl, ?_, ?_⟩
      · rw [← h]
      · rw [← h]

theorem mem_of_mem_insSort {le : α → α → Bool} {l : List α} {x : α}
    (h : x ∈ insSort le l) : x ∈ l := (insSort_perm le l).mem_iff.mp h

theorem mem_insSort_of_mem {le : α → α → Bool} {l : List α} {x : α}
    (h : x ∈ l) : x ∈ insSort le l := (insSort_perm le l).mem_iff.mpr h

/-- C4: in the timeline returned by `TemporalEvolutionAgent.build`,
adjacent events are ordered by `time_start` (Python string order), and at
equal `time_start` the earlier event has the strictly smaller event id. -/
theorem c4_timeline_sorted (st : TemporalStore) (q : String) (res : TemporalResult)
    (h : temporalBuild st q = .ok res) :
    List.Chain' (fun a b =>
      pyStrLe (a.timeStart.getD "") (b.timeStart.getD "") = true ∧
      (a.timeStart.getD "" = b.timeStart.getD "" → a.eventId < b.eventId))
      res.timeline := by
  obtain ⟨resolved, hr, htl, hep⟩ := temporalBuild_ok st q res h
  rw [htl]
  set L := (numberBodies
    (buildCsvBodies st (resolved.bind ResolvedIdentity.csvPatientUuid) ++
      buildCcdaBodies
        (((docPathsForPatient st.identity
            (resolved.bind ResolvedIdentity.csvPatientUuid)).filter
          (fun p => p.1 = "ccda")).map (fun p => p.2)) ++
      buildFhirBodies
        ((docPathsForPatient st.identity
            (resolved.bind ResolvedIdentity.csvPatientUuid)).filter
          (fun p => p.1 ≠ "ccda")) ++
      buildExportBodies st q) 0).filter (fun e => optTruthy e.timeStart) with hL
  have hpw : List.Pairwise (fun a b => timelineLe a b = true) (insSort timelineLe L) :=
    insSort_pairwise timelineLe timelineLe_trans timelineLe_total L
  have hidsL : List.Pairwise (fun a b : Event => a.eventId ≠ b.eventId) L := by
    refine List.Pairwise.imp (fun hlt => Nat.ne_of_lt hlt) ?_
    exact (numberBodies_pairwise _ 0).sublist (List.filter_sublist _)
  have hids : List.Pairwise (fun a b : Event => a.eventId ≠ b.eventId)
      (insSort timelineLe L) := by
    exact ((insSort_perm timelineLe L).pairwise_iff
      (fun hab => fun hba => hab hba.symm)).mpr hidsL
  refine List.Pairwise.chain' (List.Pairwise.imp₂ ?_ hpw hids)
  intro a b hle hne
  simp only [timelineLe, Bool.or_eq_true, Bool.and_eq_true, decide_eq_true_eq] at hle
  constructor
  · rcases hle with h1 | ⟨h1, _⟩
    · simp only [pyStrLe, charsLe, Bool.or_eq_true]
      exact Or.inl h1
    · simp [pyStrLe, charsLe, h1]
  · intro heq
    rcases hle with h1 | ⟨_, h2⟩
    · rw [heq] at h1
      exact absurd h1 (by simp [pyStrLt_irrefl])
    · exact Nat.lt_of_le_of_ne h2 hne

/-- C4 witness: the sample build is accepted by the sorted-timeline
theorem. -/
theorem c4_timeline_sorted_witness :
    List.Chain' (fun a b =>
      pyStrLe (a.timeStart.getD "") (b.timeStart.getD "") = true ∧
      (a.timeStart.getD "" = b.timeStart.getD "" → a.eventId < b.eventId))
      sampleRes.timeline :=
  c4_timeline_sorted sampleStore samplePatientUuid sampleRes (by rfl)

/-- C5: every event of the returned timeline has a non-empty
`time_start`; events whose timestamps did not resolve were filtered out. -/
theorem c5_timeline_timeStart_nonempty (st : TemporalStore) (q : String)
    (res : TemporalResult) (h : temporalBuild st q = .ok res) :
    ∀ e ∈ res.timeline, ∃ s, e.timeStart = some s ∧ s ≠ "" := by
  obtain ⟨resolved, hr, htl, hep⟩ := temporalBuild_ok st q res h
  intro e he
  rw [htl] at he
  have he2 := mem_of_mem_insSort he
  have := List.of_mem_filter he2
  cases hts : e.timeStart with
  | none => rw [hts] at this; simp [optTruthy] at this
  | some s =>
      refine ⟨s, rfl, ?_⟩
      rw [hts] at this
      simpa [optTruthy] using this

/-- C5 witness. -/
def c5DummyEvent : Event :=
  { category := "", subtype := "", timeStart := none, timeEnd := none,
    description := none, code := none, value := none, unitStr := none,
    flaggedAbnormal := false, sourceDataset := "", sourceFile := "",
    context := [], eventId := 0 }

theorem c5_timeline_timeStart_nonempty_witness :
    sampleRes.timeline.length = 4 ∧
    (∃ s, (sampleRes.timeline.headD c5DummyEvent).timeStart = some s ∧ s ≠ "") :=
  ⟨by decide,
    c5_timeline_timeStart_nonempty sampleStore samplePatientUuid sampleRes (by rfl)
      (sampleRes.timeline.headD c5DummyEvent) (by decide)⟩

theorem mem_ite_nil {c : Prop} [Decidable c] {l : List α} {ep : α}
    (h : ep ∈ if c then l else []) : ep ∈ l := by
  split at h
  · exact h
  · exact absurd h (List.not_mem_nil ep)

theorem labGroupEpisodes_eventIds_closed (L : List Event) (k : String)
    (ep : Episode) (hep : ep ∈ labGroupEpisodes L k) :
    ∀ i ∈ ep.eventIds, ∃ e ∈ L, e.eventId = i := by
  intro i hi
  simp only [labGroupEpisodes] at hep
  have hitems : ∀ e, e ∈ groupItems L k → e ∈ L := by
    intro e he
    exact List.mem_of_mem_filter (mem_of_mem_insSort he)
  rcases List.mem_append.mp hep with hleft | hright
  · rcases List.mem_singleton.mp (mem_ite_nil hleft) with rfl
    simp only [List.mem_map] at hi
    obtain ⟨e, he, rfl⟩ := hi
    exact ⟨e, hitems e (List.mem_of_mem_filter he), rfl⟩
  · have hright2 := mem_ite_nil hright
    cases hh : (groupNumeric L k).head? with
    | none => rw [hh] at hright2; exact absurd hright2 (List.not_mem_nil ep)
    | some firstPt =>
        cases hl : (groupNumeric L k).getLast? with
        | none => rw [hh, hl] at hright2; exact absurd hright2 (List.not_mem_nil ep)
        | some lastPt =>
            rw [hh, hl] at hright2
            rcases List.mem_singleton.mp (mem_ite_nil (mem_ite_nil hright2)) with rfl
            simp only [List.mem_map] at hi
            obtain ⟨e, he, rfl⟩ := hi
            exact ⟨e, hitems e he, rfl⟩

/-- C10: every event id referenced by any episode of any category names an
event present in the returned timeline. -/
theorem c10_episode_ids_closed (st : TemporalStore) (q : String)
    (res : TemporalResult) (h : temporalBuild st q = .ok res) :
    ∀ ep, (ep ∈ res.episodes.diagnosisOnset ∨ ep ∈ res.episodes.treatmentChange ∨
        ep ∈ res.episodes.abnormalLabTrend ∨ ep ∈ res.episodes.admissionDischargeCycles) →
      ∀ i ∈ ep.eventIds, ∃ e ∈ res.timeline, e.eventId = i := by
  obtain ⟨resolved, hr, htl, hep⟩ := temporalBuild_ok st q res h
  intro ep hmem i hi
  rw [hep] at hmem
  simp only [buildEpisodes] at hmem
  rcases hmem with hm | hm | hm | hm
  · simp only [List.mem_map] at hm
    obtain ⟨e, he, rfl⟩ := hm
    rcases List.mem_singleton.mp hi with rfl
    exact ⟨e, List.mem_of_mem_filter he, rfl⟩
  · simp only [List.mem_map] at hm
    obtain ⟨e, he, rfl⟩ := hm
    rcases List.mem_singleton.mp hi with rfl
    exact ⟨e, List.mem_of_mem_filter he, rfl⟩
  · simp only [abnormalLabEpisodes, List.mem_flatMap] at hm
    obtain ⟨k, hk, hmk⟩ := hm
    obtain ⟨e, he, heq⟩ := labGroupEpisodes_eventIds_closed _ k ep hmk i hi
    exact ⟨e, List.mem_of_mem_filter he, heq⟩
  · simp only [List.mem_map] at hm
    obtain ⟨e, he, rfl⟩ := hm
    rcases List.mem_singleton.mp hi with rfl
    exact ⟨e, List.mem_of_mem_filter he, rfl⟩

/-- C10 witness. -/
def c10SampleEpisode : Episode :=
  sampleRes.episodes.abnormalLabTrend.headD
    ⟨"", none, none, none, none, none, none, none, [], []⟩

theorem c10_episode_ids_closed_witness :
    sampleRes.episodes.abnormalLabTrend.length = 1 ∧
    c10SampleEpisode.eventIds = [1, 2, 3, 4] ∧
    (∃ e ∈ sampleRes.timeline, e.eventId = c10SampleEpisode.eventIds.headD 0) :=
  ⟨by decide, by decide,
    c10_episode_ids_closed sampleStore samplePatientUuid sampleRes (by rfl)
      c10SampleEpisode (Or.inr (Or.inr (Or.inl (by decide))))
      (c10SampleEpisode.eventIds.headD 0) (by decide)⟩

/-! ### Rational readings of `Frac` computations -/

theorem Frac.le_iff (a b : Frac) : Frac.le a b = true ↔ a.toRat ≤ b.toRat := by
  simp [Frac.le]

theorem Frac.lt_iff (a b : Frac) : Frac.lt a b = true ↔ a.toRat < b.toRat := by
  simp [Frac.lt]

theorem Frac.toRat_eq_div (a : Frac) : a.toRat = (a.num : ℚ) / (a.den : ℚ) := by
  simp [Frac.toRat, Rat.divInt_eq_div]

theorem Frac.toRat_fabs (a : Frac) (h : 0 < a.den) : a.fabs.toRat = |a.toRat| := by
  rw [Frac.toRat_eq_div, Frac.toRat_eq_div]
  show ((|a.num| : ℤ) : ℚ) / (a.den : ℚ) = _
  rw [Int.cast_abs, abs_div]
  congr 1
  rw [abs_of_pos]
  exact_mod_cast h

theorem Frac.toRat_sub (a b : Frac) (ha : a.den ≠ 0) (hb : b.den ≠ 0) :
    (a.sub b).toRat = a.toRat - b.toRat := by
  rw [Frac.toRat_eq_div, Frac.toRat_eq_div, Frac.toRat_eq_div]
  show ((a.num * b.den - b.num * a.den : ℤ) : ℚ) / ((a.den * b.den : ℤ) : ℚ) = _
  have ha2 : (a.den : ℚ) ≠ 0 := Int.cast_ne_zero.mpr ha
  have hb2 : (b.den : ℚ) ≠ 0 := Int.cast_ne_zero.mpr hb
  push_cast
  field_simp
  ring

theorem Frac.toRat_make (n d : Int) : (Frac.make n d).toRat = Rat.divInt n d := by
  unfold Frac.make
  split
  · show Rat.divInt (-n) (-d) = Rat.divInt n d
    rw [Rat.divInt_eq_div, Rat.divInt_eq_div]
    push_cast
    rw [neg_div_neg_eq]
  · rfl

theorem Frac.toRat_div (a b : Frac) : (a.div b).toRat = a.toRat / b.toRat := by
  unfold Frac.div
  rw [Frac.toRat_make, Rat.divInt_eq_div, Frac.toRat_eq_div, Frac.toRat_eq_div]
  push_cast
  simp [div_eq_mul_inv, mul_inv, mul_comm, mul_assoc, mul_left_comm]

theorem mem_ite_nil_full {c : Prop} [Decidable c] {l : List α} {ep : α}
    (h : ep ∈ if c then l else []) : c ∧ ep ∈ l := by
  split at h
  · next hc => exact ⟨hc, h⟩
  · exact absurd h (List.not_mem_nil ep)

theorem foldl_mul10_pos (l : List Char) (i : Int) (h : 0 < i) :
    0 < l.foldl (fun acc _ => acc * 10) i := by
  induction l generalizing i with
  | nil => exact h
  | cons c cs ih => exact ih (i * 10) (by omega)

theorem parseFloatFrac_den_pos (s : String) (f : Frac)
    (h : parseFloatFrac s = some f) : 0 < f.den := by
  simp only [parseFloatFrac] at h
  split at h
  · split at h
    · exact absurd h (by simp)
    · rcases Option.some.injEq _ _ ▸ h with rfl
      exact Int.zero_lt_one
  · split at h
    · exact absurd h (by simp)
    · split at h
      · exact absurd h (by simp)
      · rcases Option.some.injEq _ _ ▸ h with rfl
        exact foldl_mul10_pos _ 1 Int.zero_lt_one
  · exact absurd h (by simp)

theorem groupNumeric_den_pos (L : List Event) (k : String)
    (p : Option String × Frac) (hp : p ∈ groupNumeric L k) : 0 < p.2.den := by
  simp only [groupNumeric, List.mem_filterMap] at hp
  obtain ⟨it, _, hmap⟩ := hp
  cases hv : pyFloatOfValue it.value with
  | none => rw [hv] at hmap; exact absurd hmap (by simp)
  | some v =>
      rw [hv] at hmap
      simp only [Option.map, Option.some.injEq] at hmap
      cases hval : it.value with
      | none => rw [hval] at hv; exact absurd hv (by simp [pyFloatOfValue])
      | some s =>
          rw [hval] at hv
          have := parseFloatFrac_den_pos s v hv
          rw [← hmap]
          exact this

theorem groupItems_ne_nil (L : List Event) (k : String)
    (h : 3 ≤ (groupNumeric L k).length) : groupItems L k ≠ [] := by
  intro hnil
  have : (groupNumeric L k).length ≤ (groupItems L k).length := by
    unfold groupNumeric
    exact List.length_filterMap_le _ _
  rw [hnil, List.length_nil] at this
  omega

theorem groupItems_key (L : List Event) (k : String) (e : Event)
    (h : e ∈ groupItems L k) : labGroupKey e = k := by
  have := List.of_mem_filter (mem_of_mem_insSort h)
  simpa using this

theorem groupItems_subset (L : List Event) (k : String) (e : Event)
    (h : e ∈ groupItems L k) : e ∈ L :=
  List.mem_of_mem_filter (mem_of_mem_insSort h)

theorem labGroupKey_congr (e1 e2 : Event) (h : e1.description = e2.description) :
    labGroupKey e1 = labGroupKey e2 := by
  simp [labGroupKey, h]

/-- Elimination: any `abnormal_lab_trend` episode of one group records the
group's sorted items, its first/last numeric points, and the threshold
condition. -/
theorem labGroupEpisodes_trend_elim (L : List Event) (k : String) (ep : Episode)
    (hep : ep ∈ labGroupEpisodes L k) (ht : ep.episodeType = "abnormal_lab_trend") :
    ∃ fp lp, (groupNumeric L k).head? = some fp ∧ (groupNumeric L k).getLast? = some lp ∧
      3 ≤ (groupNumeric L k).length ∧ fp.2.toRat ≠ 0 ∧
      Frac.le ⟨2, 10⟩ (((lp.2.sub fp.2).div fp.2.fabs).fabs) = true ∧
      ep.eventIds = (groupItems L k).map Event.eventId ∧
      ep.testName = (groupItems L k).head?.bind (fun e => e.description) ∧
      ep.details = [("trend", .s (if Frac.lt ⟨0, 1⟩ ((lp.2.sub fp.2).div fp.2.fabs)
          then "increasing" else "decreasing")),
        ("relative_change", .fr (((lp.2.sub fp.2).div fp.2.fabs).roundScaled 1000)),
        ("points", .n (groupNumeric L k).length)] := by
  simp only [labGroupEpisodes] at hep
  rcases List.mem_append.mp hep with hleft | hright
  · rcases List.mem_singleton.mp (mem_ite_nil hleft) with rfl
    simp at ht
  · obtain ⟨h3, hmem⟩ := mem_ite_nil_full hright
    cases hh : (groupNumeric L k).head? with
    | none => rw [hh] at hmem; exact absurd hmem (List.not_mem_nil ep)
    | some fp =>
        cases hl : (groupNumeric L k).getLast? with
        | none => rw [hh, hl] at hmem; exact absurd hmem (List.not_mem_nil ep)
        | some lp =>
            rw [hh, hl] at hmem
            obtain ⟨hz, hmem2⟩ := mem_ite_nil_full hmem
            obtain ⟨hc, hmem3⟩ := mem_ite_nil_full hmem2
            rcases List.mem_singleton.mp hmem3 with rfl
            exact ⟨fp, lp, rfl, rfl, h3, hz, hc, rfl, rfl, rfl⟩

/-- Introduction: when the group has at least three numeric points, a
non-zero first value and a relative change of at least a fifth in absolute
value, the trend episode is emitted for that group. -/
theorem labGroupEpisodes_trend_intro (L : List Event) (k : String)
    (fp lp : Option String × Frac)
    (h3 : 3 ≤ (groupNumeric L k).length)
    (hh : (groupNumeric L k).head? = some fp)
    (hl : (groupNumeric L k).getLast? = some lp)
    (hz : fp.2.toRat ≠ 0)
    (hc : Frac.le ⟨2, 10⟩ (((lp.2.sub fp.2).div fp.2.fabs).fabs) = true) :
    ({ episodeType := "abnormal_lab_trend", timeStart := fp.1, timeEnd := lp.1,
       description := none, code := none, subtype := none, sourceDataset := none,
       testName := (groupItems L k).head?.bind (fun e => e.description),
       eventIds := (groupItems L k).map Event.eventId,
       details := [("trend", .s (if Frac.lt ⟨0, 1⟩ ((lp.2.sub fp.2).div fp.2.fabs)
           then "increasing" else "decreasing")),
         ("relative_change", .fr (((lp.2.sub fp.2).div fp.2.fabs).roundScaled 1000)),
         ("points", .n (groupNumeric L k).length)] } : Episode) ∈
      labGroupEpisodes L k := by
  simp only [labGroupEpisodes]
  refine List.mem_append_right _ ?_
  rw [if_pos h3, hh, hl]
  simp only [if_pos hz, if_pos hc]
  exact List.mem_singleton.mpr rfl

theorem groupKey_mem_keys (L : List Event) (k : String)
    (h : groupItems L k ≠ []) : k ∈ (L.map labGroupKey).dedup := by
  cases he : (groupItems L k).head? with
  | none => exact absurd (List.head?_eq_none_iff.mp he) h
  | some e =>
      have hm := List.mem_of_mem_head? (Option.mem_def.mpr he)
      rw [List.mem_dedup]
      exact List.mem_map.mpr ⟨e, groupItems_subset L k e hm, groupItems_key L k e hm⟩

theorem mem_abnormal_of_group (timeline : List Event) (k : String) (ep : Episode)
    (hk : k ∈ ((labEventsOf timeline).map labGroupKey).dedup)
    (hm : ep ∈ labGroupEpisodes (labEventsOf timeline) k) :
    ep ∈ abnormalLabEpisodes timeline := by
  simp only [abnormalLabEpisodes, List.mem_flatMap]
  exact ⟨k, hk, hm⟩

theorem changeFrac_den_pos (fp lp : Frac) (hfd : 0 < fp.den) (hld : 0 < lp.den)
    (hz : fp.toRat ≠ 0) : 0 < ((lp.sub fp).div fp.fabs).den := by
  have hnum : fp.num ≠ 0 := by
    intro h0
    exact hz (by simp [Frac.toRat, h0])
  show 0 < (Frac.make ((lp.sub fp).num * fp.fabs.den) ((lp.sub fp).den * fp.fabs.num)).den
  have hd : 0 < (lp.sub fp).den * fp.fabs.num := by
    simp only [Frac.sub, Frac.fabs]
    exact mul_pos (mul_pos hld hfd) (abs_pos.mpr hnum)
  unfold Frac.make
  rw [if_neg (by omega)]
  exact hd

theorem change_toRat (fp lp : Frac) (hfd : 0 < fp.den) (hld : 0 < lp.den) :
    ((lp.sub fp).div fp.fabs).toRat = (lp.toRat - fp.toRat) / |fp.toRat| := by
  rw [Frac.toRat_div, Frac.toRat_sub _ _ hld.ne' hfd.ne', Frac.toRat_fabs _ hfd]

theorem twoTenths_toRat : (⟨2, 10⟩ : Frac).toRat = (2 : ℚ) / 10 := by
  rw [Frac.toRat_eq_div]
  norm_num

theorem zeroFrac_toRat : (⟨0, 1⟩ : Frac).toRat = 0 := by
  rw [Frac.toRat_eq_div]
  norm_num

/-- The threshold test of the source read at the rational level. -/
theorem trend_condition_iff (fp lp : Frac) (hfd : 0 < fp.den) (hld : 0 < lp.den)
    (hz : fp.toRat ≠ 0) :
    Frac.le ⟨2, 10⟩ (((lp.sub fp).div fp.fabs).fabs) = true ↔
      (2 : ℚ) / 10 ≤ abs ((lp.toRat - fp.toRat) / abs fp.toRat) := by
  rw [Frac.le_iff, twoTenths_toRat,
    Frac.toRat_fabs _ (changeFrac_den_pos fp lp hfd hld hz), change_toRat fp lp hfd hld]

theorem trend_sign_iff (fp lp : Frac) (hfd : 0 < fp.den) (hld : 0 < lp.den) :
    (Frac.lt ⟨0, 1⟩ ((lp.sub fp).div fp.fabs) = true) ↔
      0 < (lp.toRat - fp.toRat) / |fp.toRat| := by
  rw [Frac.lt_iff, zeroFrac_toRat, change_toRat fp lp hfd hld]

def glucoseEvent (i : Nat) (ts v : String) : Event :=
  { category := "lab_trend", subtype := "observation", timeStart := some ts,
    timeEnd := none, description := some "Glucose", code := none, value := some v,
    unitStr := none, flaggedAbnormal := false, sourceDataset := "csv",
    sourceFile := "data/csv/observations.csv", context := [], eventId := i }

/-- The specification's thirty-percent-rise series. -/
def glucoseSeriesA : List Event :=
  [glucoseEvent 1 "2020-01-01T00:00:00" "10", glucoseEvent 2 "2020-01-02T00:00:00" "10",
   glucoseEvent 3 "2020-01-03T00:00:00" "10", glucoseEvent 4 "2020-01-04T00:00:00" "13"]

/-- The specification's ten-percent-change series. -/
def glucoseSeriesB : List Event :=
  [glucoseEvent 1 "2020-01-01T00:00:00" "10", glucoseEvent 2 "2020-01-02T00:00:00" "10",
   glucoseEvent 3 "2020-01-03T00:00:00" "10", glucoseEvent 4 "2020-01-04T00:00:00" "11"]

/-- C3: per lab test name (grouped case-insensitively), with at least
three numeric points and a non-zero first value, an `abnormal_lab_trend`
episode is emitted exactly when the relative change from first to last
numeric value is at least a fifth in absolute value; the episode is tagged
`increasing` for a positive change and `decreasing` for a negative one and
carries the rounded relative change and the numeric point count; the
series 10, 10, 10, 13 yields an increasing episode with relative change
three tenths, and 10, 10, 10, 11 yields no trend episode. -/
theorem c3_abnormal_lab_trend :
    (∀ (timeline : List Event) (k : String) (fp lp : Option String × Frac),
      3 ≤ (groupNumeric (labEventsOf timeline) k).length →
      (groupNumeric (labEventsOf timeline) k).head? = some fp →
      (groupNumeric (labEventsOf timeline) k).getLast? = some lp →
      fp.2.toRat ≠ 0 →
      (((∃ ep ∈ abnormalLabEpisodes timeline,
          ep.episodeType = "abnormal_lab_trend" ∧
          ep.testName = (groupItems (labEventsOf timeline) k).head?.bind
            (fun e => e.description)) ↔
        (2 : ℚ) / 10 ≤ abs ((lp.2.toRat - fp.2.toRat) / abs fp.2.toRat)) ∧
       (∀ ep ∈ abnormalLabEpisodes timeline,
          ep.episodeType = "abnormal_lab_trend" →
          ep.testName = (groupItems (labEventsOf timeline) k).head?.bind
            (fun e => e.description) →
          ep.eventIds = (groupItems (labEventsOf timeline) k).map Event.eventId ∧
          odGet ep.details "trend" = some (.s
            (if 0 < (lp.2.toRat - fp.2.toRat) / abs fp.2.toRat
             then "increasing" else "decreasing")) ∧
          odGet ep.details "relative_change" = some (.fr
            (((lp.2.sub fp.2).div fp.2.fabs).roundScaled 1000)) ∧
          odGet ep.details "points" = some (.n
            (groupNumeric (labEventsOf timeline) k).length)))) ∧
    (∃ ep ∈ abnormalLabEpisodes glucoseSeriesA,
      ep.episodeType = "abnormal_lab_trend" ∧
      odGet ep.details "trend" = some (.s "increasing") ∧
      odGet ep.details "relative_change" = some (.fr ⟨300, 1000⟩) ∧
      odGet ep.details "points" = some (.n 4)) ∧
    (⟨300, 1000⟩ : Frac).toRat = Rat.divInt 3 10 ∧
    (∀ ep ∈ abnormalLabEpisodes glucoseSeriesB,
      ep.episodeType ≠ "abnormal_lab_trend") := by
  refine ⟨?_, by decide, by decide, by decide⟩
  intro timeline k fp lp h3 hh hl hz
  have hfd : 0 < fp.2.den :=
    groupNumeric_den_pos _ k fp (List.mem_of_mem_head? (Option.mem_def.mpr hh))
  have hld : 0 < lp.2.den :=
    groupNumeric_den_pos _ k lp (List.mem_of_mem_getLast? (Option.mem_def.mpr hl))
  have hne : groupItems (labEventsOf timeline) k ≠ [] := groupItems_ne_nil _ _ h3
  have hheEx : ∃ e, (groupItems (labEventsOf timeline) k).head? = some e := by
    cases hq : (groupItems (labEventsOf timeline) k).head? with
    | none => exact absurd (List.head?_eq_none_iff.mp hq) hne
    | some e => exact ⟨e, rfl⟩
  obtain ⟨ehead, hhe⟩ := hheEx
  have hheadMem : ehead ∈ groupItems (labEventsOf timeline) k :=
    List.mem_of_mem_head? (Option.mem_def.mpr hhe)
  have hkey : labGroupKey ehead = k := groupItems_key _ _ _ hheadMem
  have hkmem : k ∈ ((labEventsOf timeline).map labGroupKey).dedup :=
    groupKey_mem_keys _ _ hne
  have ident : ∀ ep, ep ∈ abnormalLabEpisodes timeline →
      ep.episodeType = "abnormal_lab_trend" →
      ep.testName = (groupItems (labEventsOf timeline) k).head?.bind
        (fun e => e.description) →
      ep ∈ labGroupEpisodes (labEventsOf timeline) k := by
    intro ep hmem htype hname
    simp only [abnormalLabEpisodes, List.mem_flatMap] at hmem
    obtain ⟨k', hk', hm'⟩ := hmem
    obtain ⟨fp', lp', hh', hl', h3', hz', hc', hids', hname', hdet'⟩ :=
      labGroupEpisodes_trend_elim _ k' ep hm' htype
    have hne' : groupItems (labEventsOf timeline) k' ≠ [] := groupItems_ne_nil _ _ h3'
    have hheEx' : ∃ e, (groupItems (labEventsOf timeline) k').head? = some e := by
      cases hq : (groupItems (labEventsOf timeline) k').head? with
      | none => exact absurd (List.head?_eq_none_iff.mp hq) hne'
      | some e => exact ⟨e, rfl⟩
    obtain ⟨ehead', hhe'⟩ := hheEx'
    have hheadMem' : ehead' ∈ groupItems (labEventsOf timeline) k' :=
      List.mem_of_mem_head? (Option.mem_def.mpr hhe')
    rw [hhe'] at hname'
    rw [hhe] at hname
    have t1 : ep.testName = ehead'.description := hname'.trans rfl
    have t2 : ep.testName = ehead.description := hname.trans rfl
    have hdesc : ehead'.description = ehead.description := t1.symm.trans t2
    have hkk : k' = k := by
      rw [← groupItems_key _ k' ehead' hheadMem', ← hkey]
      exact labGroupKey_congr _ _ hdesc
    rw [← hkk]
    exact hm'
  constructor
  · constructor
    · rintro ⟨ep, hmem, htype, hname⟩
      obtain ⟨fp', lp', hh', hl', h3', hz', hc', _, _, _⟩ :=
        labGroupEpisodes_trend_elim _ k ep (ident ep hmem htype hname) htype
      rw [hh] at hh'
      rw [hl] at hl'
      rcases Option.some.injEq _ _ ▸ hh' with rfl
      rcases Option.some.injEq _ _ ▸ hl' with rfl
      exact (trend_condition_iff fp.2 lp.2 hfd hld hz).mp hc'
    · intro hcond
      have hc : Frac.le ⟨2, 10⟩ (((lp.2.sub fp.2).div fp.2.fabs).fabs) = true :=
        (trend_condition_iff fp.2 lp.2 hfd hld hz).mpr hcond
      refine ⟨_, mem_abnormal_of_group timeline k _ hkmem
        (labGroupEpisodes_trend_intro _ k fp lp h3 hh hl hz hc), rfl, rfl⟩
  · intro ep hmem htype hname
    obtain ⟨fp', lp', hh', hl', h3', hz', hc', hids', hname', hdet'⟩ :=
      labGroupEpisodes_trend_elim _ k ep (ident ep hmem htype hname) htype
    rw [hh] at hh'
    rw [hl] at hl'
    rcases Option.some.injEq _ _ ▸ hh' with rfl
    rcases Option.some.injEq _ _ ▸ hl' with rfl
    refine ⟨hids', ?_, ?_, ?_⟩
    · rw [hdet']
      exact congrArg (fun s => some (DetVal.s s))
        (if_congr (trend_sign_iff fp.2 lp.2 hfd hld) rfl rfl)
    · rw [hdet']
      rfl
    · rw [hdet']
      rfl

/-- C3 witness: the general trend characterisation applied to the
concrete glucose series. -/
theorem c3_abnormal_lab_trend_witness :
    ((∃ ep ∈ abnormalLabEpisodes glucoseSeriesA,
        ep.episodeType = "abnormal_lab_trend" ∧
        ep.testName = (groupItems (labEventsOf glucoseSeriesA) "glucose").head?.bind
          (fun e => e.description)) ↔
      (2 : ℚ) / 10 ≤ abs ((((some "2020-01-04T00:00:00", (⟨13, 1⟩ : Frac)) :
          Option String × Frac).2.toRat -
        (((some "2020-01-01T00:00:00", (⟨10, 1⟩ : Frac)) : Option String × Frac)).2.toRat) /
        abs (((some "2020-01-01T00:00:00", (⟨10, 1⟩ : Frac)) :
          Option String × Frac)).2.toRat)) ∧
    (∀ ep ∈ abnormalLabEpisodes glucoseSeriesA,
      ep.episodeType = "abnormal_lab_trend" →
      ep.testName = (groupItems (labEventsOf glucoseSeriesA) "glucose").head?.bind
        (fun e => e.description) →
      ep.eventIds = (groupItems (labEventsOf glucoseSeriesA) "glucose").map Event.eventId ∧
      odGet ep.details "trend" = some (.s
        (if 0 < ((((some "2020-01-04T00:00:00", (⟨13, 1⟩ : Frac)) :
              Option String × Frac)).2.toRat -
            (((some "2020-01-01T00:00:00", (⟨10, 1⟩ : Frac)) :
              Option String × Frac)).2.toRat) /
            abs (((some "2020-01-01T00:00:00", (⟨10, 1⟩ : Frac)) :
              Option String × Frac)).2.toRat
         then "increasing" else "decreasing")) ∧
      odGet ep.details "relative_change" = some (.fr
        ((((⟨13, 1⟩ : Frac).sub ⟨10, 1⟩).div (⟨10, 1⟩ : Frac).fabs).roundScaled 1000)) ∧
      odGet ep.details "points" = some (.n
        (groupNumeric (labEventsOf glucoseSeriesA) "glucose").length)) :=
  c3_abnormal_lab_trend.1 glucoseSeriesA "glucose"
    (some "2020-01-01T00:00:00", ⟨10, 1⟩) (some "2020-01-04T00:00:00", ⟨13, 1⟩)
    (by decide) (by decide) (by decide) (by decide)

/-! ### Dict lemmas for the identity agent -/

theorem odGet_cons (pk : String) (pv : α) (rest : List (String × α)) (q : String) :
    odGet ((pk, pv) :: rest) q = if pk = q then some pv else odGet rest q := rfl

theorem odGet_odAppend (d : List (String × List α)) (k : String) (v : α) (q : String) :
    odGet (odAppend d k v) q =
      if q = k then some ((odGet d k).getD [] ++ [v]) else odGet d q := by
  induction d with
  | nil =>
      by_cases hq : q = k
      · subst hq; simp [odAppend, odGet]
      · have hkq : ¬ k = q := fun h => hq h.symm
        simp [odAppend, odGet, hq, hkq]
  | cons p rest ih =>
      cases p with
      | mk pk pv =>
          by_cases hpk : pk = k
          · subst hpk
            by_cases hq : q = pk
            · subst hq
              simp [odAppend, odGet]
            · have hkq : ¬ pk = q := fun h => hq h.symm
              simp [odAppend, odGet_cons, hq, hkq]
          · by_cases hq : q = pk
            · subst hq
              have hqk : ¬ q = k := fun h => hpk (h ▸ rfl)
              simp [odAppend, hpk, odGet_cons, hqk]
            · have hkq : ¬ pk = q := fun h => hq h.symm
              simp only [odAppend, if_neg hpk, odGet_cons, if_neg hkq]
              rw [ih]

theorem odGet_odUpsert (d : List (String × α)) (k : String) (v : α) (q : String) :
    odGet (odUpsert d k v) q = if q = k then some v else odGet d q := by
  induction d with
  | nil =>
      by_cases hq : q = k
      · subst hq; simp [odUpsert, odGet]
      · have hkq : ¬ k = q := fun h => hq h.symm
        simp [odUpsert, odGet, hq, hkq]
  | cons p rest ih =>
      cases p with
      | mk pk pv =>
          by_cases hpk : pk = k
          · subst hpk
            by_cases hq : q = pk
            · subst hq; simp [odUpsert, odGet]
            · have hkq : ¬ pk = q := fun h => hq h.symm
              simp [odUpsert, odGet_cons, hq, hkq]
          · by_cases hq : q = pk
            · subst hq
              have hqk : ¬ q = k := fun h => hpk (h ▸ rfl)
              simp [odUpsert, hpk, odGet_cons, hqk]
            · have hkq : ¬ pk = q := fun h => hq h.symm
              simp only [odUpsert, if_neg hpk, odGet_cons, if_neg hkq]
              rw [ih]

theorem foldl_preserve {β : Type u} {γ : Type v} (P : β → Prop) (f : β → γ → β)
    (hf : ∀ b c, P b → P (f b c)) :
    ∀ (l : List γ) (b : β), P b → P (l.foldl f b) := by
  intro l
  induction l with
  | nil => intro b hb; exact hb
  | cons c cs ih => intro b hb; exact ih (f b c) (hf b c hb)

/-- The invariant tying linked profile rows to recorded profile-linkage
reasons during candidate gathering. -/
def CandInv (s : CandState) : Prop :=
  ∀ u, (odGet s.matched u).isSome →
    ∃ rsn, rsn ∈ ((odGet s.cands u).getD []) ∧
      (rsn = "profile.patient_id+demographics" ∨
       rsn = "profile.medical_record_number+demographics")

theorem candInv_addProfileMatches (d2u : List (String × List String))
    (reason : String)
    (hreason : reason = "profile.patient_id+demographics" ∨
      reason = "profile.medical_record_number+demographics")
    (profiles : List ProfileRow) (s : CandState) (hs : CandInv s) :
    CandInv (addProfileMatches d2u reason profiles s) := by
  unfold addProfileMatches
  refine foldl_preserve CandInv _ ?_ profiles s hs
  intro b p hb
  cases hu : odGet d2u (demographicKey p.firstName p.lastName p.dateOfBirth p.gender) with
  | none =>
      simp only [hu]
      intro u hmu
      exact hb u hmu
  | some uuids =>
      simp only [hu]
      refine foldl_preserve CandInv _ ?_ uuids b hb
      intro b2 u2 hb2
      intro u hmu
      simp only [odGet_odUpsert] at hmu
      by_cases huu : u = u2
      · subst huu
        refine ⟨reason, ?_, hreason⟩
        simp only [odGet_odAppend, if_pos rfl]
        simp
      · rw [if_neg huu] at hmu
        obtain ⟨rsn, hrmem, hrkind⟩ := hb2 u hmu
        refine ⟨rsn, ?_, hrkind⟩
        simp only [odGet_odAppend, if_neg huu]
        exact hrmem

theorem candInv_resolveCandState (st : IdentityStore) (query : String)
    (csvPatients : List (String × Demo)) :
    CandInv (resolveCandState st query csvPatients) := by
  unfold resolveCandState
  refine candInv_addProfileMatches _ _ (Or.inr rfl) _ _ ?_
  refine candInv_addProfileMatches _ _ (Or.inl rfl) _ _ ?_
  refine foldl_preserve CandInv _ ?_ docFamilies _ ?_
  · intro b fam hb
    refine foldl_preserve CandInv _ ?_ _ b hb
    intro b2 d hb2
    by_cases hc : pyContains d.name query
    · simp only [if_pos hc]
      cases hx : extractUuidFromName d.name with
      | none => exact hb2
      | some u =>
          intro u2 hmu
          obtain ⟨rsn, hrmem, hrkind⟩ := hb2 u2 hmu
          refine ⟨rsn, ?_, hrkind⟩
          simp only [odGet_odAppend]
          by_cases huu : u2 = u
          · rw [if_pos huu]
            subst huu
            rw [Option.getD_some]
            exact List.mem_append_left _ hrmem
          · rw [if_neg huu]
            exact hrmem
    · simp only [if_neg hc]
      exact hb2
  · intro u hmu
    split at hmu
    all_goals simp [odGet] at hmu

theorem contains_cons_of_ne (pk k : String) (l : List String) (hpk : ¬ pk = k) :
    ((pk :: l).contains k) = l.contains k := by
  simp only [List.contains_cons]
  have : (k == pk) = false := by
    exact beq_eq_false_iff_ne.mpr (fun h => hpk h.symm)
  rw [this]
  simp

theorem odAppend_keys (d : List (String × List α)) (k : String) (v : α) :
    (odAppend d k v).map Prod.fst =
      if (d.map Prod.fst).contains k then d.map Prod.fst
      else d.map Prod.fst ++ [k] := by
  induction d with
  | nil => simp [odAppend]
  | cons p rest ih =>
      cases p with
      | mk pk pv =>
          by_cases hpk : pk = k
          · subst hpk
            simp [odAppend]
          · simp only [odAppend, if_neg hpk, List.map_cons, ih,
              contains_cons_of_ne pk k _ hpk]
            by_cases hc : (rest.map Prod.fst).contains k = true
            · rw [if_pos hc, if_pos hc]
            · rw [if_neg hc, if_neg hc]
              simp

theorem odUpsert_keys (d : List (String × α)) (k : String) (v : α) :
    (odUpsert d k v).map Prod.fst =
      if (d.map Prod.fst).contains k then d.map Prod.fst
      else d.map Prod.fst ++ [k] := by
  induction d with
  | nil => simp [odUpsert]
  | cons p rest ih =>
      cases p with
      | mk pk pv =>
          by_cases hpk : pk = k
          · subst hpk
            simp [odUpsert]
          · simp only [odUpsert, if_neg hpk, List.map_cons, ih,
              contains_cons_of_ne pk k _ hpk]
            by_cases hc : (rest.map Prod.fst).contains k = true
            · rw [if_pos hc, if_pos hc]
            · rw [if_neg hc, if_neg hc]
              simp

theorem nodup_keys_odAppend (d : List (String × List α)) (k : String) (v : α)
    (h : (d.map Prod.fst).Nodup) : ((odAppend d k v).map Prod.fst).Nodup := by
  rw [odAppend_keys]
  by_cases hc : (d.map Prod.fst).contains k
  · rw [if_pos hc]; exact h
  · rw [if_neg hc]
    refine List.Nodup.append h (List.nodup_singleton k) ?_
    intro x hx hk
    rcases List.mem_singleton.mp hk with rfl
    exact hc (List.elem_iff.mpr hx)

/-- Keys of the candidate map stay distinct through the gathering phase. -/
def CandKeysNodup (s : CandState) : Prop := ((s.cands.map Prod.fst).Nodup)

theorem candKeysNodup_addProfileMatches (d2u : List (String × List String))
    (reason : String) (profiles : List ProfileRow) (s : CandState)
    (hs : CandKeysNodup s) : CandKeysNodup (addProfileMatches d2u reason profiles s) := by
  unfold addProfileMatches
  refine foldl_preserve CandKeysNodup _ ?_ profiles s hs
  intro b p hb
  cases hu : odGet d2u (demographicKey p.firstName p.lastName p.dateOfBirth p.gender) with
  | none => simpa only [hu] using hb
  | some uuids =>
      simp only [hu]
      refine foldl_preserve CandKeysNodup _ ?_ uuids b hb
      intro b2 u2 hb2
      exact nodup_keys_odAppend _ _ _ hb2

theorem candKeysNodup_resolveCandState (st : IdentityStore) (query : String)
    (csvPatients : List (String × Demo)) :
    CandKeysNodup (resolveCandState st query csvPatients) := by
  unfold resolveCandState
  refine candKeysNodup_addProfileMatches _ _ _ _ ?_
  refine candKeysNodup_addProfileMatches _ _ _ _ ?_
  refine foldl_preserve CandKeysNodup _ ?_ docFamilies _ ?_
  · intro b fam hb
    refine foldl_preserve CandKeysNodup _ ?_ _ b hb
    intro b2 d hb2
    by_cases hc : pyContains d.name query
    · simp only [if_pos hc]
      cases hx : extractUuidFromName d.name with
      | none => exact hb2
      | some u => exact nodup_keys_odAppend _ _ _ hb2
    · simp only [if_neg hc]
      exact hb2
  · unfold CandKeysNodup
    split
    all_goals simp

theorem odGet_of_mem_nodup {d : List (String × α)} (hnd : (d.map Prod.fst).Nodup)
    {k : String} {v : α} (h : (k, v) ∈ d) : odGet d k = some v := by
  induction d with
  | nil => exact absurd h (List.not_mem_nil _)
  | cons p rest ih =>
      cases p with
      | mk pk pv =>
          rcases List.mem_cons.mp h with heq | hrest
          · rcases Prod.mk.injEq _ _ _ _ ▸ heq with ⟨rfl, rfl⟩
            simp [odGet_cons]
          · have hnd' : (pk :: rest.map Prod.fst).Nodup := by
              rw [List.map_cons] at hnd
              exact hnd
            by_cases hpk : pk = k
            · subst hpk
              exfalso
              rcases List.nodup_cons.mp hnd' with ⟨hnot, _⟩
              exact hnot (List.mem_map.mpr ⟨(pk, v), hrest, rfl⟩)
            · rw [odGet_cons, if_neg hpk]
              exact ih (List.nodup_cons.mp hnd').2 hrest

theorem foldl_dedupStep_subset (l : List ResolvedIdentity) :
    ∀ (acc : List ResolvedIdentity × List (String × String × String))
      (x : ResolvedIdentity), x ∈ (l.foldl dedupStep acc).1 → x ∈ acc.1 ∨ x ∈ l := by
  induction l with
  | nil =>
      intro acc x hx
      exact Or.inl hx
  | cons a rest ih =>
      intro acc x hx
      simp only [List.foldl_cons] at hx
      rcases ih _ x hx with h1 | h2
      · simp only [dedupStep] at h1
        split at h1
        · exact Or.inl h1
        · rcases List.mem_append.mp h1 with ha | hb
          · exact Or.inl ha
          · exact Or.inr (List.mem_cons.mpr (Or.inl (List.mem_singleton.mp hb)))
      · exact Or.inr (List.mem_cons_of_mem _ h2)

theorem dedupResolved_subset {x : ResolvedIdentity} {items : List ResolvedIdentity}
    (hx : x ∈ dedupResolved items) : x ∈ items := by
  unfold dedupResolved at hx
  rcases foldl_dedupStep_subset items ([], []) x hx with h | h
  · exact absurd h (List.not_mem_nil x)
  · exact h

theorem mem_sortedSet_of_mem {x : String} {xs : List String} (h : x ∈ xs) :
    x ∈ sortedSet xs := by
  unfold sortedSet
  exact mem_insSort_of_mem (List.mem_dedup.mpr h)

theorem confidence_demo_profile_ge (c d : Bool) :
    Rat.divInt 75 100 ≤ (confidenceScore true true c d).toRat := by
  cases c <;> cases d <;> decide

theorem resolve_ok_elim (st : IdentityStore) (identifier : String)
    (out : List ResolvedIdentity) (h : resolve st identifier = .ok out) :
    out = [] ∨
    ∃ csvPatients, loadCsvPatients st = .ok csvPatients ∧
      out = dedupResolved
        ((insSort (fun a b => pyStrLe a.1 b.1)
              (resolveCandState st (pyStrip identifier) csvPatients).cands).map
            (mkKeyedIdentity st (pyStrip identifier) csvPatients
              (resolveCandState st (pyStrip identifier) csvPatients).matched) ++
          (resolveCandState st (pyStrip identifier) csvPatients).onlyRows.map
            (mkProfileOnlyIdentity (pyStrip identifier))) := by
  unfold resolve at h
  by_cases hq : pyStrip identifier = ""
  · rw [if_pos hq] at h
    simp only [pure, Except.pure, Except.ok.injEq] at h
    exact Or.inl h.symm
  · rw [if_neg hq] at h
    cases hcsv : loadCsvPatients st with
    | error e =>
        rw [hcsv] at h
        simp only [Bind.bind, Except.bind] at h
        exact Except.noConfusion h
    | ok csvPatients =>
        rw [hcsv] at h
        simp only [Bind.bind, Except.bind, pure, Except.pure, Except.ok.injEq] at h
        exact Or.inr ⟨csvPatients, rfl, h.symm⟩

/-- C2: every candidate returned by `IdentityAgent.resolve` carrying an
internal key has confidence given by the additive capped formula
(0.45 demographic row, 0.30 linked profile, 0.15 document evidence,
0.10 all internal ids agree); a demographic row plus a linked profile
forces confidence at least 0.75 and a profile-linkage reason in
`matched_by`; every identity-only candidate has confidence exactly
0.35. -/
theorem c2_confidence_formula (st : IdentityStore) (identifier : String)
    (out : List ResolvedIdentity) (hout : resolve st identifier = .ok out)
    (r : ResolvedIdentity) (hr : r ∈ out) :
    (∀ u, r.csvPatientUuid = some u →
      ∃ csvPatients, loadCsvPatients st = .ok csvPatients ∧
        (r.confidence = confidenceScore (odGet csvPatients u).isSome
          (odGet (resolveCandState st (pyStrip identifier) csvPatients).matched u).isSome
          (decide ((documentEvidence st u).1 ≠ [])) (documentEvidence st u).2 ∧
        ((odGet csvPatients u).isSome →
          (odGet (resolveCandState st (pyStrip identifier) csvPatients).matched u).isSome →
          Rat.divInt 75 100 ≤ r.confidence.toRat ∧
          ∃ rsn, rsn ∈ r.matchedBy ∧
            (rsn = "profile.patient_id+demographics" ∨
             rsn = "profile.medical_record_number+demographics")))) ∧
    (r.csvPatientUuid = none → r.confidence = ⟨35, 100⟩) := by
  rcases resolve_ok_elim st identifier out hout with hnil | ⟨csvPatients, hcsv, hshape⟩
  · subst hnil
    exact absurd hr (List.not_mem_nil r)
  · subst hshape
    have hr2 := dedupResolved_subset hr
    rcases List.mem_append.mp hr2 with hkey | hpo
    · obtain ⟨ur, hur, hreq⟩ := List.mem_map.mp hkey
      obtain ⟨uu, reasons⟩ := ur
      have hurmem : (uu, reasons) ∈
          (resolveCandState st (pyStrip identifier) csvPatients).cands :=
        mem_of_mem_insSort hur
      have hcu : r.csvPatientUuid = some uu := by
        rw [← hreq]
        rfl
      have hconf : r.confidence = confidenceScore (odGet csvPatients uu).isSome
          (odGet (resolveCandState st (pyStrip identifier) csvPatients).matched uu).isSome
          (decide ((documentEvidence st uu).1 ≠ [])) (documentEvidence st uu).2 := by
        rw [← hreq]
        rfl
      have hmb : r.matchedBy = sortedSet reasons := by
        rw [← hreq]
        rfl
      constructor
      · intro u huu
        have huq : u = uu := by
          rw [hcu] at huu
          exact (Option.some.injEq _ _ ▸ huu).symm
        subst huq
        refine ⟨csvPatients, hcsv, hconf, ?_⟩
        intro hdemo hprof
        constructor
        · rw [hconf, hdemo, hprof]
          exact confidence_demo_profile_ge _ _
        · obtain ⟨rsn, hrmem, hrkind⟩ :=
            candInv_resolveCandState st (pyStrip identifier) csvPatients u hprof
          have hget : odGet (resolveCandState st (pyStrip identifier) csvPatients).cands u =
              some reasons :=
            odGet_of_mem_nodup (candKeysNodup_resolveCandState st (pyStrip identifier)
              csvPatients) hurmem
          rw [hget, Option.getD_some] at hrmem
          exact ⟨rsn, hmb ▸ mem_sortedSet_of_mem hrmem, hrkind⟩
      · intro hnone
        rw [hcu] at hnone
        exact Option.noConfusion hnone
    · obtain ⟨p, hp, hreq⟩ := List.mem_map.mp hpo
      have hcr : r.csvPatientUuid = none := by
        rw [← hreq]
        rfl
      constructor
      · intro u huu
        rw [hcr] at huu
        exact Option.noConfusion huu
      · intro _
        rw [← hreq]
        rfl

/-- Witness data for `c2`: one tabular patient and one export-profile row
sharing the same demographics, queried by the profile's patient id. -/
def c2Store : IdentityStore :=
  { patientsFile := some [⟨some "11111111-1111-1111-1111-111111111111",
      some "Ann", some "Lee", some "1980-01-02", some "F"⟩]
    docs := []
    exportRows := [⟨some "2024-01-01T00:00:00", some "Ann", some "Lee",
      some "1980-01-02", some "F", some "P001", some "MRN9", [], [], [], none⟩]
    exportPath := "profile/patient_export.json" }

def c2Out : List ResolvedIdentity := (resolve c2Store "P001").toOption.getD []

def c2Cand : ResolvedIdentity :=
  c2Out.headD (mkProfileOnlyIdentity "" ⟨"", none, none, none, none, none, none, none⟩)

theorem c2_confidence_formula_witness :
    c2Cand ∈ c2Out ∧ c2Cand.confidence = ⟨75, 100⟩ ∧
    "profile.patient_id+demographics" ∈ c2Cand.matchedBy ∧
    ((∀ u, c2Cand.csvPatientUuid = some u →
      ∃ csvPatients, loadCsvPatients c2Store = .ok csvPatients ∧
        (c2Cand.confidence = confidenceScore (odGet csvPatients u).isSome
          (odGet (resolveCandState c2Store (pyStrip "P001") csvPatients).matched u).isSome
          (decide ((documentEvidence c2Store u).1 ≠ [])) (documentEvidence c2Store u).2 ∧
        ((odGet csvPatients u).isSome →
          (odGet (resolveCandState c2Store (pyStrip "P001") csvPatients).matched u).isSome →
          Rat.divInt 75 100 ≤ c2Cand.confidence.toRat ∧
          ∃ rsn, rsn ∈ c2Cand.matchedBy ∧
            (rsn = "profile.patient_id+demographics" ∨
             rsn = "profile.medical_record_number+demographics")))) ∧
    (c2Cand.csvPatientUuid = none → c2Cand.confidence = ⟨35, 100⟩)) :=
  ⟨by decide, by decide, by decide,
    c2_confidence_formula c2Store "P001" c2Out (by rfl) c2Cand (by decide)⟩

theorem optUuidLe_trans {a b c : Option String} (h1 : optUuidLe a b = true)
    (h2 : optUuidLe b c = true) : optUuidLe a c = true := by
  cases a with
  | none => rfl
  | some x =>
      cases b with
      | none => exact absurd h1 (by simp [optUuidLe])
      | some y =>
          cases c with
          | none => exact absurd h2 (by simp [optUuidLe])
          | some z => exact pyStrLe_trans h1 h2

theorem optUuidLe_total (a b : Option String) :
    optUuidLe a b = true ∨ optUuidLe b a = true := by
  cases a with
  | none => exact Or.inl rfl
  | some x =>
      cases b with
      | none => exact Or.inr rfl
      | some y => exact pyStrLe_total x y

theorem optUuidLe_refl (a : Option String) : optUuidLe a a = true := by
  rcases optUuidLe_total a a with h | h <;> exact h

theorem resolveOneLe_iff (a b : ResolvedIdentity) :
    resolveOneLe a b = true ↔
      (b.confidence.toRat < a.confidence.toRat ∨
       (a.confidence.toRat = b.confidence.toRat ∧
        optUuidLe a.csvPatientUuid b.csvPatientUuid = true)) := by
  unfold resolveOneLe
  simp only [Bool.or_eq_true, Bool.and_eq_true, Frac.lt_iff, Frac.le_iff]
  constructor
  · rintro (h | ⟨⟨h1, h2⟩, h3⟩)
    · exact Or.inl h
    · exact Or.inr ⟨le_antisymm h1 h2, h3⟩
  · rintro (h | ⟨h1, h2⟩)
    · exact Or.inl h
    · exact Or.inr ⟨⟨le_of_eq h1, le_of_eq h1.symm⟩, h2⟩

theorem resolveOneLe_trans (a b c : ResolvedIdentity)
    (h1 : resolveOneLe a b = true) (h2 : resolveOneLe b c = true) :
    resolveOneLe a c = true := by
  rw [resolveOneLe_iff] at h1 h2 ⊢
  rcases h1 with h1 | ⟨h1e, h1u⟩
  · rcases h2 with h2 | ⟨h2e, h2u⟩
    · exact Or.inl (h2.trans h1)
    · exact Or.inl (h2e ▸ h1)
  · rcases h2 with h2 | ⟨h2e, h2u⟩
    · exact Or.inl (h1e ▸ h2)
    · exact Or.inr ⟨h1e.trans h2e, optUuidLe_trans h1u h2u⟩

theorem resolveOneLe_total (a b : ResolvedIdentity) :
    resolveOneLe a b = true ∨ resolveOneLe b a = true := by
  rcases lt_trichotomy a.confidence.toRat b.confidence.toRat with h | h | h
  · exact Or.inr ((resolveOneLe_iff b a).mpr (Or.inl h))
  · rcases optUuidLe_total a.csvPatientUuid b.csvPatientUuid with hu | hu
    · exact Or.inl ((resolveOneLe_iff a b).mpr (Or.inr ⟨h, hu⟩))
    · exact Or.inr ((resolveOneLe_iff b a).mpr (Or.inr ⟨h.symm, hu⟩))
  · exact Or.inl ((resolveOneLe_iff a b).mpr (Or.inl h))

theorem confidenceScore_ne_profile_only (a b c d : Bool) :
    (confidenceScore a b c d).toRat ≠ ((⟨35, 100⟩ : Frac)).toRat := by
  cases a <;> cases b <;> cases c <;> cases d <;> decide

/-- Shape dichotomy for candidates returned by `resolve`: keyed (internal
uuid present, formula confidence) or identity-only (no uuid, fixed
confidence). -/
theorem resolve_elem_shape (st : IdentityStore) (identifier : String)
    (out : List ResolvedIdentity) (hout : resolve st identifier = .ok out)
    (r : ResolvedIdentity) (hr : r ∈ out) :
    (r.csvPatientUuid.isSome = true ∧
      ∃ a b c d : Bool, r.confidence = confidenceScore a b c d) ∨
    (r.csvPatientUuid = none ∧ r.confidence = ⟨35, 100⟩) := by
  rcases resolve_ok_elim st identifier out hout with hnil | ⟨csvPatients, hcsv, hshape⟩
  · subst hnil
    exact absurd hr (List.not_mem_nil r)
  · subst hshape
    have hr2 := dedupResolved_subset hr
    rcases List.mem_append.mp hr2 with hkey | hpo
    · obtain ⟨ur, hur, hreq⟩ := List.mem_map.mp hkey
      obtain ⟨uu, reasons⟩ := ur
      left
      constructor
      · rw [← hreq]
        rfl
      · refine ⟨(odGet csvPatients uu).isSome,
          (odGet (resolveCandState st (pyStrip identifier) csvPatients).matched uu).isSome,
          decide ((documentEvidence st uu).1 ≠ []), (documentEvidence st uu).2, ?_⟩
        rw [← hreq]
        rfl
    · obtain ⟨p, hp, hreq⟩ := List.mem_map.mp hpo
      right
      constructor
      · rw [← hreq]
        rfl
      · rw [← hreq]
        rfl

/-- C8: `resolve_one` returns `None` exactly when `resolve` matches
nothing; otherwise it returns a candidate of maximal confidence, breaking
confidence ties towards the smallest internal key, and the sort never
compares a keyed with a keyless candidate at equal confidence (so the
Python tuple sort cannot raise). -/
theorem c8_resolve_one (st : IdentityStore) (identifier : String)
    (out : List ResolvedIdentity) (hout : resolve st identifier = .ok out) :
    (out = [] → resolveOne st identifier = .ok none) ∧
    (out ≠ [] → ∃ c, resolveOne st identifier = .ok (some c) ∧ c ∈ out ∧
      (∀ d, d ∈ out → d.confidence.toRat ≤ c.confidence.toRat) ∧
      (∀ d, d ∈ out → d.confidence.toRat = c.confidence.toRat →
        optUuidLe c.csvPatientUuid d.csvPatientUuid = true)) ∧
    (∀ a, a ∈ out → ∀ b, b ∈ out → a.confidence.toRat = b.confidence.toRat →
      a.csvPatientUuid.isSome = b.csvPatientUuid.isSome) := by
  have hperm := insSort_perm resolveOneLe out
  refine ⟨?_, ?_, ?_⟩
  · intro hnil
    subst hnil
    unfold resolveOne
    rw [hout]
    rfl
  · intro hne
    cases hs : insSort resolveOneLe out with
    | nil =>
        exact absurd ((hs ▸ hperm).symm.eq_nil) hne
    | cons m rest =>
        have hro : resolveOne st identifier = .ok (some m) := by
          unfold resolveOne
          rw [hout]
          simp only [Bind.bind, Except.bind]
          rw [hs]
          rfl
        have hpw := insSort_pairwise resolveOneLe resolveOneLe_trans
          resolveOneLe_total out
        rw [hs] at hpw
        have hhead : ∀ y, y ∈ rest → resolveOneLe m y = true :=
          (List.pairwise_cons.mp hpw).1
        have hmem : ∀ d, d ∈ out → d = m ∨ resolveOneLe m d = true := by
          intro d hd
          have : d ∈ m :: rest := hs ▸ hperm.mem_iff.mpr hd
          rcases List.mem_cons.mp this with h | h
          · exact Or.inl h
          · exact Or.inr (hhead d h)
        refine ⟨m, hro, ?_, ?_, ?_⟩
        · exact hperm.mem_iff.mp (hs ▸ List.mem_cons_self m rest)
        · intro d hd
          rcases hmem d hd with rfl | hle
          · exact le_refl _
          · rcases (resolveOneLe_iff m d).mp hle with h | ⟨h, _⟩
            · exact le_of_lt h
            · exact le_of_eq h.symm
        · intro d hd heq
          rcases hmem d hd with rfl | hle
          · exact optUuidLe_refl _
          · rcases (resolveOneLe_iff m d).mp hle with h | ⟨_, hu⟩
            · exact absurd heq (ne_of_lt h)
            · exact hu
  · intro a ha b hb heq
    rcases resolve_elem_shape st identifier out hout a ha with
      ⟨has, _, _, _, _, hac⟩ | ⟨han, hac⟩
    · rcases resolve_elem_shape st identifier out hout b hb with
        ⟨hbs, _, _, _, _, hbc⟩ | ⟨hbn, hbc⟩
      · rw [has, hbs]
      · exfalso
        rw [hac, hbc] at heq
        exact confidenceScore_ne_profile_only _ _ _ _ heq
    · rcases resolve_elem_shape st identifier out hout b hb with
        ⟨hbs, _, _, _, _, hbc⟩ | ⟨hbn, hbc⟩
      · exfalso
        rw [hac, hbc] at heq
        exact confidenceScore_ne_profile_only _ _ _ _ heq.symm
      · rw [han, hbn]

/-- Witness data for `c8`: two document-only candidates at equal
confidence with distinct internal keys. -/
def c8Store : IdentityStore :=
  { patientsFile := some []
    docs := [⟨"ccda", "doc-shared-bbbbbbbb-bbbb-bbbb-bbbb-bbbbbbbbbbbb.xml", none, none⟩,
      ⟨"ccda", "doc-shared-aaaaaaaa-aaaa-aaaa-aaaa-aaaaaaaaaaaa.xml", none, none⟩]
    exportRows := []
    exportPath := "profile/patient_export.json" }

def c8Out : List ResolvedIdentity := (resolve c8Store "shared").toOption.getD []

theorem c8_resolve_one_witness :
    c8Out.length = 2 ∧
    c8Out.map (fun r => r.confidence) = [⟨25, 100⟩, ⟨25, 100⟩] ∧
    ((c8Out = [] → resolveOne c8Store "shared" = .ok none) ∧
     (c8Out ≠ [] → ∃ c, resolveOne c8Store "shared" = .ok (some c) ∧ c ∈ c8Out ∧
       (∀ d, d ∈ c8Out → d.confidence.toRat ≤ c.confidence.toRat) ∧
       (∀ d, d ∈ c8Out → d.confidence.toRat = c.confidence.toRat →
         optUuidLe c.csvPatientUuid d.csvPatientUuid = true)) ∧
     (∀ a, a ∈ c8Out → ∀ b, b ∈ c8Out → a.confidence.toRat = b.confidence.toRat →
       a.csvPatientUuid.isSome = b.csvPatientUuid.isSome)) :=
  ⟨by decide, by decide, c8_resolve_one c8Store "shared" c8Out (by rfl)⟩

/-- C9: `ContextFusionAgent.build` copies each normalizer event unchanged
into the enriched record (every original field is preserved, via the
`base` projection), keeps the timeline's events in the same order and
number, and passes identity and episodes through untouched. -/
theorem c9_fusion_preserves_events (st : TemporalStore) (identifier : String)
    (fres : FusionResult) (h : fusionBuild st identifier = .ok fres) :
    ∃ tres, temporalBuild st identifier = .ok tres ∧
      fres.timeline.map FusedEvent.base = tres.timeline ∧
      fres.identity = tres.identity ∧
      fres.episodes = tres.episodes ∧
      fres.timeline.length = tres.timeline.length := by
  unfold fusionBuild at h
  cases ht : temporalBuild st identifier with
  | error e =>
      rw [ht] at h
      simp only [Bind.bind, Except.bind] at h
      exact Except.noConfusion h
  | ok tres =>
      rw [ht] at h
      simp only [Bind.bind, Except.bind, pure, Except.pure, Except.ok.injEq] at h
      refine ⟨tres, rfl, ?_, ?_, ?_, ?_⟩
      · rw [← h]
        simp only [List.map_map]
        exact List.map_id tres.timeline
      · rw [← h]
      · rw [← h]
      · rw [← h]
        simp

/-- The successful fusion build over `sampleStore`. -/
def c9Res : FusionResult :=
  match fusionBuild sampleStore samplePatientUuid with
  | .ok r => r
  | .error _ =>
      { identity := none
        timeline := []
        episodes := ⟨[], [], [], []⟩
        inputTimelineEvents := 0
        fusedTimelineEvents := 0 }

theorem c9_fusion_preserves_events_witness :
    c9Res.timeline.length = 4 ∧
    ∃ tres, temporalBuild sampleStore samplePatientUuid = .ok tres ∧
      c9Res.timeline.map FusedEvent.base = tres.timeline ∧
      c9Res.identity = tres.identity ∧
      c9Res.episodes = tres.episodes ∧
      c9Res.timeline.length = tres.timeline.length :=
  ⟨by decide,
    c9_fusion_preserves_events sampleStore samplePatientUuid c9Res (by rfl)⟩

theorem nearestStep_le (t : Int) (acc : Option (Int × EncounterRow))
    (a : String × EncounterRow) (b : Int × EncounterRow) (hacc : acc = some b) :
    ∃ b', nearestStep t acc a = some b' ∧ b'.1 ≤ b.1 := by
  subst hacc
  cases hs : dtVal a.2.start with
  | none => exact ⟨b, by simp [nearestStep, hs], le_refl _⟩
  | some st =>
      by_cases hlt : |t - st| < b.1
      · exact ⟨(|t - st|, a.2), by simp [nearestStep, hs, hlt], le_of_lt hlt⟩
      · exact ⟨b, by simp [nearestStep, hs, hlt], le_refl _⟩

theorem nearestStep_cover (t : Int) (acc : Option (Int × EncounterRow))
    (a : String × EncounterRow) (s2 : Int) (hs : dtVal a.2.start = some s2) :
    ∃ b', nearestStep t acc a = some b' ∧ b'.1 ≤ |t - s2| := by
  cases acc with
  | none => exact ⟨(|t - s2|, a.2), by simp [nearestStep, hs], le_refl _⟩
  | some b =>
      by_cases hlt : |t - s2| < b.1
      · exact ⟨(|t - s2|, a.2), by simp [nearestStep, hs, hlt], le_refl _⟩
      · exact ⟨b, by simp [nearestStep, hs, hlt], le_of_not_lt hlt⟩

theorem nearestStep_none_elim (t : Int) (acc : Option (Int × EncounterRow))
    (a : String × EncounterRow) (h : nearestStep t acc a = none) :
    acc = none ∧ dtVal a.2.start = none := by
  cases hs : dtVal a.2.start with
  | none =>
      simp only [nearestStep, hs] at h
      exact ⟨h, rfl⟩
  | some st =>
      exfalso
      cases acc with
      | none =>
          simp only [nearestStep, hs] at h
          exact Option.noConfusion h
      | some b =>
          simp only [nearestStep, hs] at h
          by_cases hlt : |t - st| < b.1
          · rw [if_pos hlt] at h
            exact Option.noConfusion h
          · rw [if_neg hlt] at h
            exact Option.noConfusion h

theorem nearestStep_origin (t : Int) (acc : Option (Int × EncounterRow))
    (a : String × EncounterRow) (d : Int) (enc : EncounterRow)
    (h : nearestStep t acc a = some (d, enc)) :
    acc = some (d, enc) ∨
      (enc = a.2 ∧ ∃ s, dtVal a.2.start = some s ∧ d = |t - s|) := by
  cases hs : dtVal a.2.start with
  | none =>
      simp only [nearestStep, hs] at h
      exact Or.inl h
  | some st =>
      cases acc with
      | none =>
          simp only [nearestStep, hs] at h
          rcases Prod.mk.injEq _ _ _ _ ▸ (Option.some.injEq _ _ ▸ h) with ⟨h1, h2⟩
          exact Or.inr ⟨h2.symm, st, rfl, h1.symm⟩
      | some b =>
          simp only [nearestStep, hs] at h
          by_cases hlt : |t - st| < b.1
          · rw [if_pos hlt] at h
            rcases Prod.mk.injEq _ _ _ _ ▸ (Option.some.injEq _ _ ▸ h) with ⟨h1, h2⟩
            exact Or.inr ⟨h2.symm, st, rfl, h1.symm⟩
          · rw [if_neg hlt] at h
            exact Or.inl h

theorem nearest_foldl_spec (t : Int) (l : List (String × EncounterRow)) :
    ∀ acc : Option (Int × EncounterRow),
      (∀ d enc, l.foldl (nearestStep t) acc = some (d, enc) →
        ((acc = some (d, enc) ∨
          ∃ kv, kv ∈ l ∧ kv.2 = enc ∧ ∃ s, dtVal enc.start = some s ∧ d = |t - s|) ∧
         (∀ b, acc = some b → d ≤ b.1) ∧
         (∀ kv, kv ∈ l → ∀ s2, dtVal kv.2.start = some s2 → d ≤ |t - s2|))) ∧
      (l.foldl (nearestStep t) acc = none →
        acc = none ∧ ∀ kv, kv ∈ l → dtVal kv.2.start = none) := by
  induction l with
  | nil =>
      intro acc
      constructor
      · intro d enc h
        simp only [List.foldl_nil] at h
        refine ⟨Or.inl h, ?_, ?_⟩
        · intro b hb
          rw [h] at hb
          rw [(Option.some.injEq _ _ ▸ hb : (d, enc) = b).symm]
        · intro kv hkv
          exact absurd hkv (List.not_mem_nil kv)
      · intro h
        simp only [List.foldl_nil] at h
        exact ⟨h, fun kv hkv => absurd hkv (List.not_mem_nil kv)⟩
  | cons a l ih =>
      intro acc
      constructor
      · intro d enc h
        simp only [List.foldl_cons] at h
        obtain ⟨horig, hacc', hmins⟩ := (ih (nearestStep t acc a)).1 d enc h
        refine ⟨?_, ?_, ?_⟩
        · rcases horig with hstep | ⟨kv, hkv, hkve, hs⟩
          · rcases nearestStep_origin t acc a d enc hstep with hl | ⟨he, s, hs, hd⟩
            · exact Or.inl hl
            · exact Or.inr ⟨a, List.mem_cons_self a l, he.symm, s, he ▸ hs, hd⟩
          · exact Or.inr ⟨kv, List.mem_cons_of_mem a hkv, hkve, hs⟩
        · intro b hb
          obtain ⟨b', hb', hble⟩ := nearestStep_le t acc a b hb
          exact le_trans (hacc' b' hb') hble
        · intro kv hkv s2 hs2
          rcases List.mem_cons.mp hkv with rfl | hkv2
          · obtain ⟨b', hb', hble⟩ := nearestStep_cover t acc kv s2 hs2
            exact le_trans (hacc' b' hb') hble
          · exact hmins kv hkv2 s2 hs2
      · intro h
        simp only [List.foldl_cons] at h
        obtain ⟨hstep, hrest⟩ := (ih (nearestStep t acc a)).2 h
        obtain ⟨hacc, ha⟩ := nearestStep_none_elim t acc a hstep
        refine ⟨hacc, ?_⟩
        intro kv hkv
        rcases List.mem_cons.mp hkv with rfl | hkv2
        · exact ha
        · exact hrest kv hkv2

/-- C7: encounter resolution preference order in `ContextFusionAgent`: a
resolvable `encounter_id` context key wins; otherwise a timestamped event
takes an encounter whose `[start, stop]` range contains the event time;
otherwise the encounter with the nearest start by absolute time delta;
and with no timestamp and no resolvable id nothing is chosen and the
encounter-derived context fields stay null. -/
theorem c7_encounter_resolution (e : Event) (idx : FusionIndexes) :
    (∀ eventDt enc,
      ctxValSafeStr ((odGet e.context "encounter_id").getD .null) ≠ "" →
      odGet idx.encounters (ctxValSafeStr ((odGet e.context "encounter_id").getD .null)) =
        some enc →
      encounterForEvent eventDt e idx = some enc) ∧
    ((ctxValSafeStr ((odGet e.context "encounter_id").getD .null) = "" ∨
      odGet idx.encounters (ctxValSafeStr ((odGet e.context "encounter_id").getD .null)) =
        none) →
     (encounterForEvent none e idx = none ∧
      (relatedContext e none idx).encounterId = none ∧
      (relatedContext e none idx).encounterClass = none ∧
      (relatedContext e none idx).provider = none ∧
      (relatedContext e none idx).facility = none ∧
      (relatedContext e none idx).reasonCode = none ∧
      (relatedContext e none idx).reasonDescription = none) ∧
     (∀ t kv, kv ∈ idx.encounters →
       (∃ st sp, dtVal kv.2.start = some st ∧ dtVal kv.2.stop = some sp ∧
         st ≤ t ∧ t ≤ sp) →
       ∃ enc, encounterForEvent (some t) e idx = some enc ∧
         enc ∈ idx.encounters.map Prod.snd ∧
         ∃ st sp, dtVal enc.start = some st ∧ dtVal enc.stop = some sp ∧
           st ≤ t ∧ t ≤ sp) ∧
     (∀ t, (∀ kv, kv ∈ idx.encounters → ∀ st sp, dtVal kv.2.start = some st →
         dtVal kv.2.stop = some sp → ¬(st ≤ t ∧ t ≤ sp)) →
       ∀ kv0, kv0 ∈ idx.encounters → ∀ s0, dtVal kv0.2.start = some s0 →
       ∃ enc s, encounterForEvent (some t) e idx = some enc ∧
         enc ∈ idx.encounters.map Prod.snd ∧ dtVal enc.start = some s ∧
         ∀ kv, kv ∈ idx.encounters → ∀ s2, dtVal kv.2.start = some s2 →
           |t - s| ≤ |t - s2|)) := by
  constructor
  · intro eventDt enc hne hget
    simp only [encounterForEvent]
    rw [if_pos hne, hget]
  · intro hnone
    have hscr : (if ctxValSafeStr ((odGet e.context "encounter_id").getD .null) ≠ "" then
        odGet idx.encounters (ctxValSafeStr ((odGet e.context "encounter_id").getD .null))
        else none) = none := by
      rcases hnone with h | h
      · rw [if_neg (fun hc => hc h)]
      · by_cases hc : ctxValSafeStr ((odGet e.context "encounter_id").getD .null) ≠ ""
        · rw [if_pos hc]
          exact h
        · rw [if_neg hc]
    refine ⟨?_, ?_, ?_⟩
    · have hre : encounterForEvent none e idx = none := by
        simp only [encounterForEvent]
        rw [hscr]
      refine ⟨hre, ?_, ?_, ?_, ?_, ?_, ?_⟩ <;>
        simp only [relatedContext, hre, Option.none_bind]
    · intro t kv hkv hcont
      obtain ⟨st, sp, hst, hsp, hle1, hle2⟩ := hcont
      have hpred : (fun kv : String × EncounterRow =>
          match dtVal kv.2.start, dtVal kv.2.stop with
          | some st, some sp => decide (st ≤ t ∧ t ≤ sp)
          | _, _ => false) kv = true := by
        simp only [hst, hsp]
        exact decide_eq_true ⟨hle1, hle2⟩
      have hsome : (idx.encounters.find? (fun kv : String × EncounterRow =>
          match dtVal kv.2.start, dtVal kv.2.stop with
          | some st, some sp => decide (st ≤ t ∧ t ≤ sp)
          | _, _ => false)).isSome := List.find?_isSome.mpr ⟨kv, hkv, hpred⟩
      obtain ⟨fkv, hfkv⟩ := Option.isSome_iff_exists.mp hsome
      have hPf := List.find?_some hfkv
      have hmemf := List.mem_of_find?_eq_some hfkv
      refine ⟨fkv.2, ?_, List.mem_map.mpr ⟨fkv, hmemf, rfl⟩, ?_⟩
      · simp only [encounterForEvent]
        rw [hscr, hfkv]
      · cases hst' : dtVal fkv.2.start with
        | none =>
            rw [hst'] at hPf
            cases hsp' : dtVal fkv.2.stop <;> rw [hsp'] at hPf <;>
              exact Bool.noConfusion hPf
        | some st' =>
            cases hsp' : dtVal fkv.2.stop with
            | none =>
                rw [hst', hsp'] at hPf
                exact Bool.noConfusion hPf
            | some sp' =>
                rw [hst', hsp'] at hPf
                obtain ⟨h1, h2⟩ := of_decide_eq_true hPf
                exact ⟨st', sp', rfl, rfl, h1, h2⟩
    · intro t hnc kv0 hkv0 s0 hs0
      have hfnone : idx.encounters.find? (fun kv : String × EncounterRow =>
          match dtVal kv.2.start, dtVal kv.2.stop with
          | some st, some sp => decide (st ≤ t ∧ t ≤ sp)
          | _, _ => false) = none := by
        apply List.find?_eq_none.mpr
        intro x hx
        cases hst' : dtVal x.2.start with
        | none =>
            cases hsp' : dtVal x.2.stop <;> simp [hst', hsp']
        | some st' =>
            cases hsp' : dtVal x.2.stop with
            | none => simp [hst', hsp']
            | some sp' =>
                simp only [hst', hsp']
                intro hc
                exact hnc x hx st' sp' hst' hsp' (of_decide_eq_true hc)
      cases hfold : idx.encounters.foldl (nearestStep t) none with
      | none =>
          obtain ⟨_, hall⟩ := (nearest_foldl_spec t idx.encounters none).2 hfold
          rw [hall kv0 hkv0] at hs0
          exact Option.noConfusion hs0
      | some b =>
          obtain ⟨d, enc'⟩ := b
          obtain ⟨horig, _, hmins⟩ :=
            (nearest_foldl_spec t idx.encounters none).1 d enc' hfold
          rcases horig with hbad | ⟨kvw, hkvw, hkvwe, s, hsenc, hd⟩
          · exact Option.noConfusion hbad
          · refine ⟨enc', s, ?_, List.mem_map.mpr ⟨kvw, hkvw, hkvwe⟩, hsenc, ?_⟩
            · simp only [encounterForEvent]
              rw [hscr, hfnone, hfold]
              rfl
            · intro kv hkv s2 hs2
              rw [← hd]
              exact hmins kv hkv s2 hs2

/-- Witness data for `c7`: two encounters, one event with a resolvable
`encounter_id`, one without. -/
def c7Enc1 : EncounterRow :=
  { rid := some "enc1", patient := some "p1", start := some "2020-01-01T00:00:00",
    stop := some "2020-01-02T00:00:00", description := some "Visit",
    reasonDescription := none, reasonCode := none, code := none,
    encounterClass := some "ambulatory", provider := none, organization := none,
    payer := none }

def c7Enc2 : EncounterRow :=
  { rid := some "enc2", patient := some "p1", start := some "2020-02-01T00:00:00",
    stop := some "2020-02-02T00:00:00", description := some "Visit",
    reasonDescription := none, reasonCode := none, code := none,
    encounterClass := some "inpatient", provider := none, organization := none,
    payer := none }

def c7Idx : FusionIndexes :=
  ⟨[("enc1", c7Enc1), ("enc2", c7Enc2)], [], [], [], [], [], []⟩

def c7Event : Event :=
  { category := "encounter", subtype := "visit",
    timeStart := some "2020-01-01T00:00:00", timeEnd := none, description := none,
    code := none, value := none, unitStr := none, flaggedAbnormal := false,
    sourceDataset := "csv", sourceFile := "encounters.csv",
    context := [("encounter_id", .s "enc1")], eventId := 1 }

def c7Event2 : Event :=
  { category := "observation", subtype := "lab_result",
    timeStart := none, timeEnd := none, description := none,
    code := none, value := none, unitStr := none, flaggedAbnormal := false,
    sourceDataset := "csv", sourceFile := "observations.csv",
    context := [], eventId := 2 }

def c7T1 : Int := (dtVal (some "2020-01-01T12:00:00")).getD 0

def c7T2 : Int := (dtVal (some "2020-03-01T00:00:00")).getD 0

def c7S1 : Int := (dtVal (some "2020-01-01T00:00:00")).getD 0

def c7P1 : Int := (dtVal (some "2020-01-02T00:00:00")).getD 0

theorem no_containment_of_all (l : List (String × EncounterRow)) (t : Int)
    (h : l.all (fun kv => match dtVal kv.2.start, dtVal kv.2.stop with
        | some st, some sp => decide (¬(st ≤ t ∧ t ≤ sp))
        | _, _ => true) = true) :
    ∀ kv, kv ∈ l → ∀ st sp, dtVal kv.2.start = some st → dtVal kv.2.stop = some sp →
      ¬(st ≤ t ∧ t ≤ sp) := by
  intro kv hkv st sp hst hsp
  have hx := List.all_eq_true.mp h kv hkv
  rw [hst, hsp] at hx
  exact of_decide_eq_true hx

theorem c7_encounter_resolution_witness :
    encounterForEvent (some c7T1) c7Event c7Idx = some c7Enc1 ∧
    (encounterForEvent none c7Event2 c7Idx = none ∧
     (relatedContext c7Event2 none c7Idx).encounterId = none ∧
     (relatedContext c7Event2 none c7Idx).encounterClass = none ∧
     (relatedContext c7Event2 none c7Idx).provider = none ∧
     (relatedContext c7Event2 none c7Idx).facility = none ∧
     (relatedContext c7Event2 none c7Idx).reasonCode = none ∧
     (relatedContext c7Event2 none c7Idx).reasonDescription = none) ∧
    (∃ enc, encounterForEvent (some c7T1) c7Event2 c7Idx = some enc ∧
      enc ∈ c7Idx.encounters.map Prod.snd ∧
      ∃ st sp, dtVal enc.start = some st ∧ dtVal enc.stop = some sp ∧
        st ≤ c7T1 ∧ c7T1 ≤ sp) ∧
    (∃ enc s, encounterForEvent (some c7T2) c7Event2 c7Idx = some enc ∧
      enc ∈ c7Idx.encounters.map Prod.snd ∧ dtVal enc.start = some s ∧
      ∀ kv, kv ∈ c7Idx.encounters → ∀ s2, dtVal kv.2.start = some s2 →
        |c7T2 - s| ≤ |c7T2 - s2|) :=
  ⟨(c7_encounter_resolution c7Event c7Idx).1 (some c7T1) c7Enc1 (by decide) (by decide),
   ((c7_encounter_resolution c7Event2 c7Idx).2 (Or.inl (by decide))).1,
   ((c7_encounter_resolution c7Event2 c7Idx).2 (Or.inl (by decide))).2.1 c7T1
     ("enc1", c7Enc1) (by decide) ⟨c7S1, c7P1, by decide, by decide, by decide, by decide⟩,
   ((c7_encounter_resolution c7Event2 c7Idx).2 (Or.inl (by decide))).2.2 c7T2
     (no_containment_of_all _ _ (by decide)) ("enc1", c7Enc1) (by decide) c7S1 (by decide)⟩

theorem digit_ne {c : Char} (h : c.isDigit = true) {d : Char}
    (hd : d.isDigit = false) : c ≠ d := by
  intro he
  rw [he, hd] at h
  exact Bool.noConfusion h

theorem contains_false (cs : List Char) (c : Char) (h : ∀ x ∈ cs, x ≠ c) :
    cs.contains c = false := by
  cases hc : cs.contains c
  · rfl
  · exact absurd rfl (h c (List.elem_iff.mp hc))

theorem strptimeDigits_8 (ys mos das : List Char)
    (hy : ys.length = 4) (hm : mos.length = 2) (hd : das.length = 2)
    (hvd : validDate (digitsVal ys) (digitsVal mos) (digitsVal das) = true) :
    strptimeDigits (ys ++ (mos ++ das)) =
      some ⟨digitsVal ys, digitsVal mos, digitsVal das, 0, 0, 0, 0, none⟩ := by
  have hlen : (ys ++ (mos ++ das)).length = 8 := by
    simp [hy, hm, hd]
  have h6 : (ys ++ (mos ++ das)).drop 6 = das := by
    rw [show (6 : Nat) = 2 + 4 from rfl, ← List.drop_drop 2 4 (ys ++ (mos ++ das)),
      List.drop_left' hy, List.drop_left' hm]
  simp only [strptimeDigits]
  rw [List.take_left' hy, List.drop_left' hy, List.take_left' hm, h6,
    List.take_of_length_le hd.le, hlen]
  simp only [if_neg (show ¬ ((8 : Nat) ≥ 12) from by omega),
    if_neg (show ¬ ((8 : Nat) ≥ 14) from by omega)]
  simp [hvd, validTime]

theorem strptimeDigits_12 (ys mos das hs mis : List Char)
    (hy : ys.length = 4) (hm : mos.length = 2) (hd : das.length = 2)
    (hh : hs.length = 2) (hmi : mis.length = 2)
    (hvd : validDate (digitsVal ys) (digitsVal mos) (digitsVal das) = true)
    (hvt : validTime (digitsVal hs) (digitsVal mis) 0 = true) :
    strptimeDigits (ys ++ (mos ++ (das ++ (hs ++ mis)))) =
      some ⟨digitsVal ys, digitsVal mos, digitsVal das,
        digitsVal hs, digitsVal mis, 0, 0, none⟩ := by
  have hlen : (ys ++ (mos ++ (das ++ (hs ++ mis)))).length = 12 := by
    simp [hy, hm, hd, hh, hmi]
  have h6 : (ys ++ (mos ++ (das ++ (hs ++ mis)))).drop 6 = das ++ (hs ++ mis) := by
    rw [show (6 : Nat) = 2 + 4 from rfl,
      ← List.drop_drop 2 4 (ys ++ (mos ++ (das ++ (hs ++ mis)))),
      List.drop_left' hy, List.drop_left' hm]
  have h8 : (ys ++ (mos ++ (das ++ (hs ++ mis)))).drop 8 = hs ++ mis := by
    rw [show (8 : Nat) = 2 + 6 from rfl,
      ← List.drop_drop 2 6 (ys ++ (mos ++ (das ++ (hs ++ mis)))), h6,
      List.drop_left' hd]
  have h10 : (ys ++ (mos ++ (das ++ (hs ++ mis)))).drop 10 = mis := by
    rw [show (10 : Nat) = 2 + 8 from rfl,
      ← List.drop_drop 2 8 (ys ++ (mos ++ (das ++ (hs ++ mis)))), h8,
      List.drop_left' hh]
  simp only [strptimeDigits]
  rw [List.take_left' hy, List.drop_left' hy, List.take_left' hm, h6,
    List.take_left' hd, h8, List.take_left' hh, h10,
    List.take_of_length_le hmi.le, hlen]
  simp only [if_pos (show (12 : Nat) ≥ 12 from by omega),
    if_neg (show ¬ ((12 : Nat) ≥ 14) from by omega)]
  simp [hvd, hvt]

theorem strptimeDigits_14 (ys mos das hs mis secs : List Char)
    (hy : ys.length = 4) (hm : mos.length = 2) (hd : das.length = 2)
    (hh : hs.length = 2) (hmi : mis.length = 2) (hsec : secs.length = 2)
    (hvd : validDate (digitsVal ys) (digitsVal mos) (digitsVal das) = true)
    (hvt : validTime (digitsVal hs) (digitsVal mis) (digitsVal secs) = true) :
    strptimeDigits (ys ++ (mos ++ (das ++ (hs ++ (mis ++ secs))))) =
      some ⟨digitsVal ys, digitsVal mos, digitsVal das,
        digitsVal hs, digitsVal mis, digitsVal secs, 0, none⟩ := by
  have hlen : (ys ++ (mos ++ (das ++ (hs ++ (mis ++ secs))))).length = 14 := by
    simp [hy, hm, hd, hh, hmi, hsec]
  have h6 : (ys ++ (mos ++ (das ++ (hs ++ (mis ++ secs))))).drop 6 =
      das ++ (hs ++ (mis ++ secs)) := by
    rw [show (6 : Nat) = 2 + 4 from rfl,
      ← List.drop_drop 2 4 (ys ++ (mos ++ (das ++ (hs ++ (mis ++ secs))))),
      List.drop_left' hy, List.drop_left' hm]
  have h8 : (ys ++ (mos ++ (das ++ (hs ++ (mis ++ secs))))).drop 8 =
      hs ++ (mis ++ secs) := by
    rw [show (8 : Nat) = 2 + 6 from rfl,
      ← List.drop_drop 2 6 (ys ++ (mos ++ (das ++ (hs ++ (mis ++ secs))))), h6,
      List.drop_left' hd]
  have h10 : (ys ++ (mos ++ (das ++ (hs ++ (mis ++ secs))))).drop 10 =
      mis ++ secs := by
    rw [show (10 : Nat) = 2 + 8 from rfl,
      ← List.drop_drop 2 8 (ys ++ (mos ++ (das ++ (hs ++ (mis ++ secs))))), h8,
      List.drop_left' hh]
  have h12 : (ys ++ (mos ++ (das ++ (hs ++ (mis ++ secs))))).drop 12 = secs := by
    rw [show (12 : Nat) = 2 + 10 from rfl,
      ← List.drop_drop 2 10 (ys ++ (mos ++ (das ++ (hs ++ (mis ++ secs))))), h10,
      List.drop_left' hmi]
  simp only [strptimeDigits]
  rw [List.take_left' hy, List.drop_left' hy, List.take_left' hm, h6,
    List.take_left' hd, h8, List.take_left' hh, h10, List.take_left' hmi,
    h12, List.take_of_length_le hsec.le, hlen]
  simp only [if_pos (show (14 : Nat) ≥ 12 from by omega),
    if_pos (show (14 : Nat) ≥ 14 from by omega)]
  simp [hvd, hvt]

theorem parseAnyDatetime_digit (s : String) (cs1 sfx : List Char) (dt : PyDateTime)
    (hsplit : s.data = cs1 ++ sfx)
    (hstrip : pyStrip s = s)
    (hlen : cs1.length = 8 ∨ cs1.length = 12 ∨ cs1.length = 14)
    (hdig : ∀ x ∈ cs1, x.isDigit = true)
    (hsfx : sfx = [] ∨ (∃ rest, sfx = '+' :: rest ∧
      (∀ x ∈ rest, x.isDigit = true ∨ x = '+') ∧ cs1.length = 14))
    (hok : strptimeDigits cs1 = some dt) :
    parseAnyDatetime (some s) =
      some (String.mk (isoformatSeconds dt).data ++ String.mk sfx) := by
  have hne : ¬ (s = "") := by
    intro he
    rw [he] at hsplit
    have hnil : cs1 = [] := (List.append_eq_nil.mp hsplit.symm).1
    rcases hlen with h | h | h <;> rw [hnil] at h <;> exact absurd h (by decide)
  have hchars : ∀ x ∈ s.data, x.isDigit = true ∨ x = '+' := by
    intro x hx
    rw [hsplit] at hx
    rcases List.mem_append.mp hx with h | h
    · exact Or.inl (hdig x h)
    · rcases hsfx with rfl | ⟨rest, rfl, hrest, _⟩
      · exact absurd h (List.not_mem_nil x)
      · rcases List.mem_cons.mp h with rfl | h2
        · exact Or.inr rfl
        · exact hrest x h2
  have hnT : s.data.contains 'T' = false := by
    apply contains_false
    intro x hx
    rcases hchars x hx with h | rfl
    · exact digit_ne h (by decide)
    · decide
  have hnD : s.data.contains '-' = false := by
    apply contains_false
    intro x hx
    rcases hchars x hx with h | rfl
    · exact digit_ne h (by decide)
    · decide
  have hall : cs1.all Char.isDigit = true := List.all_eq_true.mpr hdig
  simp only [parseAnyDatetime, safeStr, hstrip, if_neg hne, pyContainsChar, hnT, hnD,
    Bool.or_self, Bool.false_eq_true, if_false]
  rcases hsfx with rfl | ⟨rest, rfl, hrest, h14⟩
  · rw [List.append_nil] at hsplit
    rw [hsplit]
    rcases hlen with hl | hl | hl <;>
      simp [hl, hall, hok]
  · rw [hsplit]
    have hgt : (cs1 ++ '+' :: rest).length > 14 := by
      rw [List.length_append, h14]
      simp
    have hgetD : (cs1 ++ '+' :: rest).getD 14 ' ' = '+' := by
      rw [List.getD_append_right cs1 ('+' :: rest) ' ' 14 h14.le, h14]
      rfl
    have hc : (((cs1 ++ '+' :: rest).getD 14 ' ' == '+') ||
        ((cs1 ++ '+' :: rest).getD 14 ' ' == '-')) = true := by
      rw [hgetD]
      rfl
    have hgtb : decide ((cs1 ++ '+' :: rest).length > 14) = true := decide_eq_true hgt
    simp only [hgtb, hc, Bool.true_and, if_true, List.take_left' h14, List.drop_left' h14]
    simp [hall, h14, hok]

/-- C6 (amended): `_parse_any_datetime` returns `None` on
whitespace-only input; returns `datetime.isoformat()` for strings
containing `T` or `-` that `fromisoformat` (after the `Z` to `+00:00`
rewrite) accepts; accepts an all-digit string of length 8, 12 or 14
exactly when its fixed-width components form a valid calendar
timestamp, rendering `isoformat(timespec="seconds")`; splits off and
re-appends verbatim a suffix only when the character at index 14 is a
sign (here the version-independent `+` form); and for any string of
length at least 10 whose first ten characters form a valid `YYYY-MM-DD`
date it returns a timestamp; it is total, so it never raises. -/
theorem c6_parse_any_datetime_amended :
    (∀ s, pyStrip s = "" → parseAnyDatetime (some s) = none) ∧
    (∀ s dt, pyStrip s = s → ¬ (s = "") →
      (s.data.contains 'T' || s.data.contains '-') = true →
      pyFromIsoformat (replaceZ s) = some dt →
      parseAnyDatetime (some s) = some (isoformatAuto dt)) ∧
    (∀ s ys mos das, pyStrip s = s → s.data = ys ++ (mos ++ das) →
      ys.length = 4 → mos.length = 2 → das.length = 2 →
      (∀ x ∈ s.data, x.isDigit = true) →
      validDate (digitsVal ys) (digitsVal mos) (digitsVal das) = true →
      parseAnyDatetime (some s) =
        some (isoformatSeconds ⟨digitsVal ys, digitsVal mos, digitsVal das,
          0, 0, 0, 0, none⟩)) ∧
    (∀ s ys mos das hs mis, pyStrip s = s →
      s.data = ys ++ (mos ++ (das ++ (hs ++ mis))) →
      ys.length = 4 → mos.length = 2 → das.length = 2 →
      hs.length = 2 → mis.length = 2 →
      (∀ x ∈ s.data, x.isDigit = true) →
      validDate (digitsVal ys) (digitsVal mos) (digitsVal das) = true →
      validTime (digitsVal hs) (digitsVal mis) 0 = true →
      parseAnyDatetime (some s) =
        some (isoformatSeconds ⟨digitsVal ys, digitsVal mos, digitsVal das,
          digitsVal hs, digitsVal mis, 0, 0, none⟩)) ∧
    (∀ s ys mos das hs mis secs sfx, pyStrip s = s →
      s.data = (ys ++ (mos ++ (das ++ (hs ++ (mis ++ secs))))) ++ sfx →
      ys.length = 4 → mos.length = 2 → das.length = 2 →
      hs.length = 2 → mis.length = 2 → secs.length = 2 →
      (∀ x ∈ ys ++ (mos ++ (das ++ (hs ++ (mis ++ secs)))), x.isDigit = true) →
      (sfx = [] ∨ ∃ rest, sfx = '+' :: rest ∧
        (∀ x ∈ rest, x.isDigit = true ∨ x = '+')) →
      validDate (digitsVal ys) (digitsVal mos) (digitsVal das) = true →
      validTime (digitsVal hs) (digitsVal mis) (digitsVal secs) = true →
      parseAnyDatetime (some s) =
        some (String.mk (isoformatSeconds ⟨digitsVal ys, digitsVal mos,
          digitsVal das, digitsVal hs, digitsVal mis, digitsVal secs,
          0, none⟩).data ++ String.mk sfx)) ∧
    (∀ s y mo da, pyStrip s = s → 10 ≤ s.data.length →
      parseIsoDate (s.data.take 10) = some (y, mo, da, []) →
      validDate y mo da = true →
      (parseAnyDatetime (some s)).isSome = true) := by
  refine ⟨?_, ?_, ?_, ?_, ?_, ?_⟩
  · intro s h
    simp only [parseAnyDatetime, safeStr, h]
    simp
  · intro s dt hstrip hne hcond hiso
    simp only [parseAnyDatetime, safeStr, hstrip, if_neg hne, pyContainsChar, hcond,
      if_true, hiso, Option.map_some']
  · intro s ys mos das hstrip hsplit hy hm hd hall hvd
    have hcs : s.data = (ys ++ (mos ++ das)) ++ [] := by
      rw [List.append_nil]
      exact hsplit
    have hres := parseAnyDatetime_digit s (ys ++ (mos ++ das)) [] _ hcs hstrip
      (Or.inl (by simp [hy, hm, hd]))
      (fun x hx => hall x (hsplit ▸ hx))
      (Or.inl rfl)
      (strptimeDigits_8 ys mos das hy hm hd hvd)
    rw [hres]
    congr 1
  · intro s ys mos das hs mis hstrip hsplit hy hm hd hh hmi hall hvd hvt
    have hcs : s.data = (ys ++ (mos ++ (das ++ (hs ++ mis)))) ++ [] := by
      rw [List.append_nil]
      exact hsplit
    have hres := parseAnyDatetime_digit s (ys ++ (mos ++ (das ++ (hs ++ mis)))) [] _
      hcs hstrip
      (Or.inr (Or.inl (by simp [hy, hm, hd, hh, hmi])))
      (fun x hx => hall x (hsplit ▸ hx))
      (Or.inl rfl)
      (strptimeDigits_12 ys mos das hs mis hy hm hd hh hmi hvd hvt)
    rw [hres]
    congr 1
  · intro s ys mos das hs mis secs sfx hstrip hsplit hy hm hd hh hmi hsec hall hsfx hvd hvt
    have h14 : (ys ++ (mos ++ (das ++ (hs ++ (mis ++ secs))))).length = 14 := by
      simp [hy, hm, hd, hh, hmi, hsec]
    refine parseAnyDatetime_digit s _ sfx _ hsplit hstrip
      (Or.inr (Or.inr h14)) hall ?_
      (strptimeDigits_14 ys mos das hs mis secs hy hm hd hh hmi hsec hvd hvt)
    rcases hsfx with rfl | ⟨rest, rfl, hrest⟩
    · exact Or.inl rfl
    · exact Or.inr ⟨rest, rfl, hrest, h14⟩
  · intro s y mo da hstrip hlen10 hp hvd
    have hne : ¬ (s = "") := by
      intro he
      rw [he] at hlen10
      simp at hlen10
    simp only [parseAnyDatetime, safeStr, hstrip, if_neg hne]
    split
    · rfl
    · split
      · rfl
      · simp only [if_pos hlen10, hp, hvd, if_true, Option.isSome_some]

/-- C6 counterexample: the all-digit length-8 input `"99999999"` is in the
claim's accepted families yet returns `None` (its fixed-width components
are not a valid calendar date), and `"20240101123045-junk"` — not ISO-8601
and carrying a non-numeric suffix, hence in the claim's "any other input
returns None" class — is accepted, with the junk suffix re-appended
verbatim. -/
theorem c6_parse_any_datetime_counterexample :
    (parseAnyDatetime (some "99999999") = none ∧
     (∀ x ∈ ("99999999" : String).data, x.isDigit = true) ∧
     ("99999999" : String).data.length = 8 ∧
     pyStrip "99999999" = "99999999") ∧
    (parseAnyDatetime (some "20240101123045-junk") =
       some "2024-01-01T12:30:45-junk" ∧
     ("20240101123045-junk" : String).data =
       ("20240101123045" : String).data ++ ('-' :: ("junk" : String).data) ∧
     (∀ x ∈ ("20240101123045" : String).data, x.isDigit = true) ∧
     ("20240101123045" : String).data.length = 14) := by
  refine ⟨⟨?_, ?_, ?_, ?_⟩, ⟨?_, ?_, ?_, ?_⟩⟩ <;> decide

theorem c6_parse_any_datetime_amended_witness :
    parseAnyDatetime (some " ") = none ∧
    parseAnyDatetime (some "2024-01-01T00:00:00Z") =
      some (isoformatAuto ⟨2024, 1, 1, 0, 0, 0, 0, some 0⟩) ∧
    isoformatAuto ⟨2024, 1, 1, 0, 0, 0, 0, some 0⟩ = "2024-01-01T00:00:00+00:00" ∧
    parseAnyDatetime (some "20240229") =
      some (isoformatSeconds ⟨digitsVal ("2024" : String).data,
        digitsVal ("02" : String).data, digitsVal ("29" : String).data,
        0, 0, 0, 0, none⟩) ∧
    isoformatSeconds ⟨digitsVal ("2024" : String).data,
      digitsVal ("02" : String).data, digitsVal ("29" : String).data,
      0, 0, 0, 0, none⟩ = "2024-02-29T00:00:00" ∧
    parseAnyDatetime (some "202401011230") =
      some (isoformatSeconds ⟨digitsVal ("2024" : String).data,
        digitsVal ("01" : String).data, digitsVal ("01" : String).data,
        digitsVal ("12" : String).data, digitsVal ("30" : String).data,
        0, 0, none⟩) ∧
    isoformatSeconds ⟨digitsVal ("2024" : String).data,
      digitsVal ("01" : String).data, digitsVal ("01" : String).data,
      digitsVal ("12" : String).data, digitsVal ("30" : String).data,
      0, 0, none⟩ = "2024-01-01T12:30:00" ∧
    parseAnyDatetime (some "20240101123045+0500") =
      some (String.mk (isoformatSeconds ⟨digitsVal ("2024" : String).data,
        digitsVal ("01" : String).data, digitsVal ("01" : String).data,
        digitsVal ("12" : String).data, digitsVal ("30" : String).data,
        digitsVal ("45" : String).data, 0, none⟩).data ++
        String.mk ('+' :: ("0500" : String).data)) ∧
    String.mk (isoformatSeconds ⟨digitsVal ("2024" : String).data,
      digitsVal ("01" : String).data, digitsVal ("01" : String).data,
      digitsVal ("12" : String).data, digitsVal ("30" : String).data,
      digitsVal ("45" : String).data, 0, none⟩).data ++
      String.mk ('+' :: ("0500" : String).data) = "2024-01-01T12:30:45+0500" ∧
    (parseAnyDatetime (some "2024-01-01 note")).isSome = true :=
  ⟨c6_parse_any_datetime_amended.1 " " (by decide),
   c6_parse_any_datetime_amended.2.1 "2024-01-01T00:00:00Z"
     ⟨2024, 1, 1, 0, 0, 0, 0, some 0⟩ (by decide) (by decide) (by decide) (by decide),
   by decide,
   c6_parse_any_datetime_amended.2.2.1 "20240229" ("2024" : String).data
     ("02" : String).data ("29" : String).data (by decide) (by decide) (by decide)
     (by decide) (by decide) (by decide) (by decide),
   by decide,
   c6_parse_any_datetime_amended.2.2.2.1 "202401011230" ("2024" : String).data
     ("01" : String).data ("01" : String).data ("12" : String).data
     ("30" : String).data (by decide) (by decide) (by decide) (by decide)
     (by decide) (by decide) (by decide) (by decide) (by decide) (by decide),
   by decide,
   c6_parse_any_datetime_amended.2.2.2.2.1 "20240101123045+0500"
     ("2024" : String).data ("01" : String).data ("01" : String).data
     ("12" : String).data ("30" : String).data ("45" : String).data
     ('+' :: ("0500" : String).data) (by decide) (by decide) (by decide)
     (by decide) (by decide) (by decide) (by decide) (by decide) (by decide)
     (Or.inr ⟨("0500" : String).data, rfl, by decide⟩) (by decide) (by decide),
   by decide,
   c6_parse_any_datetime_amended.2.2.2.2.2 "2024-01-01 note" 2024 1 1
     (by decide) (by decide) (by decide) (by decide)⟩
